import Mathlib

/-!
# Configuration resolution of the price feeder (`config/config.go`)

A shallow embedding of `config.Get`, `config.MustGet` and `Config.Validate`.

* Go maps are finite maps with unique keys (`GoMap`); the order of `entries`
  stands for the order in which a `range` loop visits them.
* `os.Getenv` is a function from variable names to strings, `""` when a
  variable is unset.  The environment is the one seen after `godotenv.Load`.
* The package-level variable `defaultExchangeSymbolsMap` is a Go map, hence a
  reference: `Get` receives its current content and returns its content after
  the call.
* Library calls (`json.Unmarshal`, `asset.MustNewPair`,
  `sdk.ValAddressFromBech32`) and the constants of package `sources` are
  collected in `Externals`.
-/

namespace Pricefeeder

/-! ## Go maps -/

/-- First value stored under key `k` in an association list. -/
def lookup {κ ν : Type} [DecidableEq κ] (k : κ) : List (κ × ν) → Option ν
  | [] => none
  | (a, b) :: rest => if a = k then some b else lookup k rest

/-- A Go map: finitely many entries, no key twice. -/
structure GoMap (κ ν : Type) [DecidableEq κ] where
  entries : List (κ × ν)
  nodup : (entries.map Prod.fst).Nodup

namespace GoMap

variable {κ ν : Type} [DecidableEq κ]

/-- The map literal `map[K]V{}`. -/
def empty : GoMap κ ν := ⟨[], List.nodup_nil⟩

/-- The read `v, ok := m[k]`. -/
def get (m : GoMap κ ν) (k : κ) : Option ν := lookup k m.entries

theorem set_nodup (l : List (κ × ν)) (h : (l.map Prod.fst).Nodup) (k : κ) (v : ν) :
    (((k, v) :: l.filter (fun e => e.1 ≠ k)).map Prod.fst).Nodup := by
  rw [List.map_cons, List.nodup_cons]
  refine ⟨?_, ?_⟩
  · intro hk
    obtain ⟨e, he, hek⟩ := List.mem_map.1 hk
    have := (List.mem_filter.1 he).2
    simp at this
    exact this hek
  · exact h.sublist (List.filter_sublist l |>.map Prod.fst)

/-- The assignment `m[k] = v`. -/
def set (m : GoMap κ ν) (k : κ) (v : ν) : GoMap κ ν :=
  ⟨(k, v) :: m.entries.filter (fun e => e.1 ≠ k), set_nodup m.entries m.nodup k v⟩

/-- A composite literal `map[K]V{k1: v1, k2: v2, ...}`. -/
def ofList (l : List (κ × ν)) : GoMap κ ν :=
  l.foldl (fun m e => m.set e.1 e.2) empty

/-- The builtin `len(m)`. -/
def len (m : GoMap κ ν) : Nat := m.entries.length

end GoMap

/-! ## Data model -/

/-- Go: `asset.Pair` is declared `type Pair string`. -/
abbrev Pair := String

/-- Go: `types.Symbol` is declared `type Symbol string`. -/
abbrev Symbol := String

/-- Go: `json.RawMessage`, the undecoded bytes of a JSON value. -/
abbrev RawMessage := String

/-- Go: `sdk.ValAddress`, a byte slice. -/
abbrev ValAddress := List Nat

/-- Go: `map[string]map[asset.Pair]types.Symbol`. -/
abbrev SymbolTable := GoMap String (GoMap Pair Symbol)

/-- Go: `os.Getenv`; an unset variable reads as `""`. -/
abbrev Env := String → String

/-- Go: `os.Setenv`. -/
def Env.setenv (env : Env) (key value : String) : Env :=
  fun k => if k = key then value else env k

/-- Go: `type Config struct`; a map field is `none` when it is the nil map,
`ValidatorAddr` is `none` when the pointer is nil. -/
structure Config where
  ExchangesToPairToSymbolMap : Option SymbolTable
  DataSourceConfigMap : Option (GoMap String RawMessage)
  GRPCEndpoint : String
  WebsocketEndpoint : String
  FeederMnemonic : String
  ChainID : String
  ValidatorAddr : Option ValAddress
  EnableTLS : Bool

/-- Go: `new(Config)`, every field at its zero value. -/
def Config.new : Config where
  ExchangesToPairToSymbolMap := none
  DataSourceConfigMap := none
  GRPCEndpoint := ""
  WebsocketEndpoint := ""
  FeederMnemonic := ""
  ChainID := ""
  ValidatorAddr := none
  EnableTLS := false

/-- Go: `func (c *Config) Validate() error`; `none` is the nil error, `some msg`
the error built by `fmt.Errorf(msg)`. -/
def Config.Validate (c : Config) : Option String :=
  if c.ChainID = "" then some "no chain id"
  else if c.FeederMnemonic = "" then some "no feeder mnemonic"
  else if c.WebsocketEndpoint = "" then some "no websocket endpoint"
  else if c.GRPCEndpoint = "" then some "no grpc endpoint"
  else none

/-- The four rules of the specification's validator, in its check order: the
field that must not be empty and the message of the failure. -/
def validationRules : List ((Config → String) × String) :=
  [ (Config.ChainID, "no chain id"),
    (Config.FeederMnemonic, "no feeder mnemonic"),
    (Config.WebsocketEndpoint, "no websocket endpoint"),
    (Config.GRPCEndpoint, "no grpc endpoint") ]

/-- The specification's first-failure-wins policy: the message of the first
violated rule, no error when every rule passes. -/
def firstFailure (c : Config) : Option String :=
  (validationRules.find? (fun r => r.1 c = "")).map Prod.snd

/-! ## Library calls and imported constants -/

/-- What `Get` takes from outside `config.go`. -/
structure Externals where
  /-- Constant `sources.Bitfinex`. -/
  Bitfinex : String
  /-- Constant `sources.GateIo`. -/
  GateIo : String
  /-- Constant `sources.Okex`. -/
  Okex : String
  /-- Call `json.Unmarshal(data, &m)` on a fresh empty
  `map[string]map[string]string`: `none` when it reports an error, otherwise the
  content of `m` afterwards.  A nil map, outer or inner, has no entries: a
  `range` loop over it visits nothing. -/
  unmarshalSymbols : String → Option (GoMap String (GoMap String String))
  /-- Call `json.Unmarshal(data, &m)` on a fresh empty
  `map[string]json.RawMessage`: `none` on error, otherwise `m` afterwards, which
  is `some none` when the call has set `m` to the nil map (the document `null`). -/
  unmarshalRaw : String → Option (Option (GoMap String RawMessage))
  /-- The error `asset.TryNewPair` reports for a pair string, `none` when the
  string is a well-formed pair. -/
  pairError : String → Option String
  /-- Call `sdk.ValAddressFromBech32`: `none` when it reports an error. -/
  valAddressFromBech32 : String → Option ValAddress

/-- Outcome of a Go call that either returns a value or panics. -/
inductive Exec (α : Type) where
  | ok (value : α)
  | panic (msg : String)

/-- Go: `asset.MustNewPair`.  `asset.Pair` is a string type and the constructor
returns its argument, converted, when `asset.TryNewPair` accepts it; it panics
with the reported error otherwise. -/
def MustNewPair (x : Externals) (pair : String) : Exec Pair :=
  match x.pairError pair with
  | none => .ok pair
  | some e => .panic e

/-- Every pair string of the override is accepted by `asset.TryNewPair`. -/
def WellFormed (x : Externals) (ov : GoMap String (GoMap String String)) : Prop :=
  ∀ e ∈ ov.entries, ∀ q ∈ e.2.entries, x.pairError q.1 = none

/-! ## The compiled-in table -/

/-- Entry `sources.Bitfinex` of the literal `defaultExchangeSymbolsMap`. -/
def bitfinexSymbols : GoMap Pair Symbol :=
  GoMap.ofList
    [ ("ubtc:uusd", "tBTCUSD"),
      ("ueth:uusd", "tETHUSD"),
      ("uusdc:uusd", "tUDCUSD"),
      ("uusdt:uusd", "tUSTUSD"),
      ("uatom:uusd", "tATOUSD") ]

/-- Entry `sources.GateIo` of the literal `defaultExchangeSymbolsMap`. -/
def gateIoSymbols : GoMap Pair Symbol :=
  GoMap.ofList
    [ ("ubtc:uusd", "BTC_USDT"),
      ("ueth:uusd", "ETH_USDT"),
      ("uusdc:uusd", "USDC_USDT"),
      ("uusdt:uusd", "USDT_USD"),
      ("uatom:uusd", "ATOM_USDT") ]

/-- Entry `sources.Okex` of the literal `defaultExchangeSymbolsMap`. -/
def okexSymbols : GoMap Pair Symbol :=
  GoMap.ofList
    [ ("ubtc:uusd", "BTC-USDT"),
      ("ueth:uusd", "ETH-USDT"),
      ("uusdc:uusd", "USDC-USDT"),
      ("uusdt:uusd", "USDT-USDC"),
      ("uatom:uusd", "ATOM-USDT") ]

/-- Go: `var defaultExchangeSymbolsMap = map[string]map[asset.Pair]types.Symbol{...}`,
the value the variable holds when the process starts. -/
def defaultExchangeSymbolsMap (x : Externals) : SymbolTable :=
  GoMap.ofList
    [ (x.Bitfinex, bitfinexSymbols),
      (x.GateIo, gateIoSymbols),
      (x.Okex, okexSymbols) ]

/-- The Go compiler rejects a map literal with two equal constant keys, so the
three constants of the literal are pairwise different. -/
def Externals.DistinctSources (x : Externals) : Prop :=
  x.Bitfinex ≠ x.GateIo ∧ x.Bitfinex ≠ x.Okex ∧ x.GateIo ≠ x.Okex

/-! ## Get -/

/-- The inner loop of `Get`,
`for nibiAssetPair, tickerSymbol := range symbolMap { table[exchange][asset.MustNewPair(nibiAssetPair)] = types.Symbol(tickerSymbol) }`,
over the entries still to visit; the table is the shared map the loop writes
through.  A panic leaves the table as it is at that point. -/
def mergePairs (x : Externals) (exchange : String) :
    List (String × String) → SymbolTable → Exec Unit × SymbolTable
  | [], table => (.ok (), table)
  | (nibiAssetPair, tickerSymbol) :: rest, table =>
    match MustNewPair x nibiAssetPair with
    | .panic e => (.panic e, table)
    | .ok pair =>
      match table.get exchange with
      | none => (.panic "assignment to entry in nil map", table)
      | some inner =>
        mergePairs x exchange rest (table.set exchange (inner.set pair tickerSymbol))

/-- The outer loop of `Get`,
`for exchange, symbolMap := range overrideExchangeSymbolsMap { table[exchange] = map[asset.Pair]types.Symbol{}; ... }`. -/
def mergeOverride (x : Externals) :
    List (String × GoMap String String) → SymbolTable → Exec Unit × SymbolTable
  | [], table => (.ok (), table)
  | (exchange, symbolMap) :: rest, table =>
    match mergePairs x exchange symbolMap.entries (table.set exchange GoMap.empty) with
    | (.panic e, table1) => (.panic e, table1)
    | (.ok (), table1) => mergeOverride x rest table1

/-- What a call of `Get` does: it returns `(*Config, error)` (`none` for nil in
either place) or it panics. -/
inductive GetResult where
  | returned (conf : Option Config) (err : Option String)
  | panicked (msg : String)

/-- The error result of a call that returned. -/
def GetResult.error : GetResult → Option String
  | .returned _ err => err
  | .panicked _ => none

/-- The `*Config` result of a call that returned. -/
def GetResult.conf : GetResult → Option Config
  | .returned conf _ => conf
  | .panicked _ => none

/-- Whether the call panicked. -/
def GetResult.panics : GetResult → Bool
  | .returned _ _ => false
  | .panicked _ => true

/-- Go: `func Get() (*Config, error)`.  The third argument is the content of the
package-level `defaultExchangeSymbolsMap` when the call starts, the second
component of the result its content when the call ends.  The assignment
`conf.ExchangesToPairToSymbolMap = defaultExchangeSymbolsMap` copies the map
reference, so the loops write into the package-level map and the field shows
its content. -/
def Get (x : Externals) (env : Env) (table : SymbolTable) : GetResult × SymbolTable :=
  let conf := Config.new
  let conf := { conf with ChainID := env "CHAIN_ID" }
  let conf := { conf with GRPCEndpoint := env "GRPC_ENDPOINT" }
  let conf := { conf with WebsocketEndpoint := env "WEBSOCKET_ENDPOINT" }
  let conf := { conf with FeederMnemonic := env "FEEDER_MNEMONIC" }
  let conf := { conf with EnableTLS := decide (env "ENABLE_TLS" = "true") }
  let overrideExchangeSymbolsMapJson := env "EXCHANGE_SYMBOLS_MAP"
  match x.unmarshalSymbols overrideExchangeSymbolsMapJson with
  | none =>
    (.returned none (some "failed to parse EXCHANGE_SYMBOLS_MAP: invalid json"), table)
  | some overrideExchangeSymbolsMap =>
    match mergeOverride x overrideExchangeSymbolsMap.entries table with
    | (.panic e, table1) => (.panicked e, table1)
    | (.ok (), table1) =>
      let conf := { conf with ExchangesToPairToSymbolMap := some table1 }
      let datasourceConfigMapJson := env "DATASOURCE_CONFIG_MAP"
      let parsed : Option (Option (GoMap String RawMessage)) :=
        if datasourceConfigMapJson ≠ "" then x.unmarshalRaw datasourceConfigMapJson
        else some (some GoMap.empty)
      match parsed with
      | none =>
        (.returned none (some "failed to parse DATASOURCE_CONFIG_MAP: invalid json"), table1)
      | some datasourceConfigMap =>
        let conf := { conf with DataSourceConfigMap := datasourceConfigMap }
        let valAddrStr := env "VALIDATOR_ADDRESS"
        let conf :=
          if valAddrStr ≠ "" then
            match x.valAddressFromBech32 valAddrStr with
            | some valAddr => { conf with ValidatorAddr := some valAddr }
            | none => conf
          else conf
        (.returned (some conf) conf.Validate, table1)

/-- What a call of `MustGet` does: it returns a `*Config` or it panics. -/
inductive MustGetResult where
  | returned (conf : Config)
  | panicked (msg : String)

/-- Go: `func MustGet() *Config`, with the table threaded as in `Get`. -/
def MustGet (x : Externals) (env : Env) (table : SymbolTable) : MustGetResult × SymbolTable :=
  match Get x env table with
  | (.panicked e, table1) => (.panicked e, table1)
  | (.returned conf err, table1) =>
    match err with
    | some e => (.panicked ("config error! check the environment: " ++ e), table1)
    | none =>
      match conf with
      | none => (.panicked "invalid config", table1)
      | some c => (.returned c, table1)

/-- The datasource variable is empty and `ds` is the empty map made at line 89,
or `json.Unmarshal` accepts the variable and leaves `ds` (`none` for the nil
map). -/
def DatasourceParses (x : Externals) (env : Env) (ds : Option (GoMap String RawMessage)) :
    Prop :=
  (env "DATASOURCE_CONFIG_MAP" = "" ∧ ds = some GoMap.empty)
  ∨ (env "DATASOURCE_CONFIG_MAP" ≠ "" ∧ x.unmarshalRaw (env "DATASOURCE_CONFIG_MAP") = some ds)

/-- The four required variables are non-empty. -/
def RequiredSet (env : Env) : Prop :=
  env "CHAIN_ID" ≠ "" ∧ env "FEEDER_MNEMONIC" ≠ ""
  ∧ env "WEBSOCKET_ENDPOINT" ≠ "" ∧ env "GRPC_ENDPOINT" ≠ ""

/-! ## A concrete setting -/

/-- A JSON document overriding one exchange with one pair. -/
def sampleOverrideJson : String :=
  "\x7b\"bitfinex\":\x7b\"ubtc:uusd\":\"tXBTUSD\"\x7d\x7d"

/-- The map `json.Unmarshal` decodes `sampleOverrideJson` to. -/
def sampleOverride : GoMap String (GoMap String String) :=
  GoMap.empty.set "bitfinex" (GoMap.empty.set "ubtc:uusd" "tXBTUSD")

/-- Concrete values for the imported constants, and library calls that answer as
the Go libraries do on the inputs used below: the empty input is not JSON, the
document `{}` decodes to the empty map, `sampleOverrideJson` decodes to
`sampleOverride`, a pair of two denominations is well-formed, a string without
separator is neither a pair nor a validator address. -/
def sampleExternals : Externals where
  Bitfinex := "bitfinex"
  GateIo := "gateio"
  Okex := "okex"
  unmarshalSymbols := fun data =>
    if data = "\x7b\x7d" then some GoMap.empty
    else if data = sampleOverrideJson then some sampleOverride
    else none
  unmarshalRaw := fun data =>
    if data = "\x7b\x7d" then some (some GoMap.empty) else none
  pairError := fun pair =>
    if pair = "ubtc:uusd" ∨ pair = "ueth:uusd" then none else some "invalid token pair"
  valAddressFromBech32 := fun _ => none

/-- An environment with the four required variables set and nothing else. -/
def requiredOnlyEnv : Env := fun key =>
  if key = "CHAIN_ID" then "nibiru-localnet-0"
  else if key = "GRPC_ENDPOINT" then "localhost:9090"
  else if key = "WEBSOCKET_ENDPOINT" then "ws://localhost:26657/websocket"
  else if key = "FEEDER_MNEMONIC" then "guard cream sadness conduct invite crumble clock pudding"
  else ""

/-- The required variables and `EXCHANGE_SYMBOLS_MAP={}`. -/
def noOverrideEnv : Env := requiredOnlyEnv.setenv "EXCHANGE_SYMBOLS_MAP" "\x7b\x7d"

/-- The required variables and `EXCHANGE_SYMBOLS_MAP` set to `sampleOverrideJson`. -/
def overrideEnv : Env := requiredOnlyEnv.setenv "EXCHANGE_SYMBOLS_MAP" sampleOverrideJson

/-- A JSON document whose only pair string has no separator. -/
def badPairJson : String :=
  "\x7b\"bitfinex\":\x7b\"ubtcuusd\":\"tBTCUSD\"\x7d\x7d"

/-- The map `json.Unmarshal` decodes `badPairJson` to. -/
def badPairOverride : GoMap String (GoMap String String) :=
  GoMap.empty.set "bitfinex" (GoMap.empty.set "ubtcuusd" "tBTCUSD")

/-- The setting `sampleExternals`, with `badPairJson` decoded as well. -/
def badPairExternals : Externals :=
  { sampleExternals with
    unmarshalSymbols := fun data =>
      if data = badPairJson then some badPairOverride
      else sampleExternals.unmarshalSymbols data }

/-- The required variables and `EXCHANGE_SYMBOLS_MAP` set to `badPairJson`. -/
def badPairEnv : Env := requiredOnlyEnv.setenv "EXCHANGE_SYMBOLS_MAP" badPairJson

/-- A JSON document overriding an exchange that the compiled-in table lacks. -/
def newExchangeJson : String :=
  "\x7b\"binance\":\x7b\"ubtc:uusd\":\"BTCUSDT\"\x7d\x7d"

/-- The map `json.Unmarshal` decodes `newExchangeJson` to. -/
def newExchangeOverride : GoMap String (GoMap String String) :=
  GoMap.empty.set "binance" (GoMap.empty.set "ubtc:uusd" "BTCUSDT")

/-- The setting `sampleExternals`, with `newExchangeJson` decoded as well. -/
def newExchangeExternals : Externals :=
  { sampleExternals with
    unmarshalSymbols := fun data =>
      if data = newExchangeJson then some newExchangeOverride
      else sampleExternals.unmarshalSymbols data }

/-- The required variables and `EXCHANGE_SYMBOLS_MAP` set to `newExchangeJson`. -/
def newExchangeEnv : Env := requiredOnlyEnv.setenv "EXCHANGE_SYMBOLS_MAP" newExchangeJson

/-- Whether the call of `MustGet` ended in a panic. -/
def MustGetResult.panics : MustGetResult → Bool
  | .returned _ => false
  | .panicked _ => true

/-! ## Facts about Go maps -/

theorem lookup_filter_ne {κ ν : Type} [DecidableEq κ] (k k' : κ) (h : k' ≠ k) :
    ∀ l : List (κ × ν), lookup k' (l.filter (fun e => e.1 ≠ k)) = lookup k' l := by
  intro l
  induction l with
  | nil => rfl
  | cons e rest ih =>
    obtain ⟨a, b⟩ := e
    by_cases hak : a = k
    · have hne : a ≠ k' := fun h1 => h (h1.symm.trans hak)
      rw [List.filter_cons_of_neg (by simpa using hak), ih]
      simp [lookup, hne]
    · rw [List.filter_cons_of_pos (by simpa using hak)]
      simp only [lookup, ih]

theorem lookup_eq_none {κ ν : Type} [DecidableEq κ] (k : κ) :
    ∀ l : List (κ × ν), k ∉ l.map Prod.fst → lookup k l = none := by
  intro l
  induction l with
  | nil => intro _; rfl
  | cons e rest ih =>
    obtain ⟨a, b⟩ := e
    intro hk
    simp only [List.map_cons, List.mem_cons, not_or] at hk
    have hne : a ≠ k := fun h => hk.1 h.symm
    simp [lookup, hne, ih hk.2]

namespace GoMap

variable {κ ν : Type} [DecidableEq κ]

theorem get_empty (k : κ) : (empty : GoMap κ ν).get k = none := rfl

theorem get_set_self (m : GoMap κ ν) (k : κ) (v : ν) : (m.set k v).get k = some v := by
  simp [get, set, lookup]

theorem get_set_ne (m : GoMap κ ν) (k k' : κ) (v : ν) (h : k' ≠ k) :
    (m.set k v).get k' = m.get k' := by
  have hne : k ≠ k' := fun h1 => h h1.symm
  simp only [get, set, lookup, hne, if_false]
  exact lookup_filter_ne k k' h m.entries

end GoMap

/-! ## The merge loops -/

/-- With well-formed pairs the inner loop ends normally; afterwards the entry of
`exchange` holds the visited pairs on top of what it held before, and no other
entry of the table has changed. -/
theorem mergePairs_ok (x : Externals) (exchange : String) :
    ∀ (pairs : List (String × String)) (table : SymbolTable) (inner : GoMap Pair Symbol),
      (∀ q ∈ pairs, x.pairError q.1 = none) →
      (pairs.map Prod.fst).Nodup →
      table.get exchange = some inner →
      ∃ (table1 : SymbolTable) (inner1 : GoMap Pair Symbol),
        mergePairs x exchange pairs table = (.ok (), table1)
        ∧ table1.get exchange = some inner1
        ∧ (∀ p, inner1.get p =
            match lookup p pairs with
            | some s => some s
            | none => inner.get p)
        ∧ (∀ E, E ≠ exchange → table1.get E = table.get E) := by
  intro pairs
  induction pairs with
  | nil =>
    intro table inner _ _ hget
    exact ⟨table, inner, rfl, hget, fun p => by simp [lookup], fun _ _ => rfl⟩
  | cons e rest ih =>
    obtain ⟨a, b⟩ := e
    intro table inner hwf hnd hget
    have ha : x.pairError a = none := hwf (a, b) (List.mem_cons_self _ _)
    have hrest : ∀ q ∈ rest, x.pairError q.1 = none :=
      fun q hq => hwf q (List.mem_cons_of_mem _ hq)
    rw [List.map_cons, List.nodup_cons] at hnd
    obtain ⟨table1, inner1, hrun, hg1, hin, hframe⟩ :=
      ih (table.set exchange (inner.set a b)) (inner.set a b) hrest hnd.2
        (GoMap.get_set_self _ _ _)
    refine ⟨table1, inner1, ?_, hg1, ?_, ?_⟩
    · simp only [mergePairs, MustNewPair, ha, hget]
      exact hrun
    · intro p
      rw [hin p]
      by_cases hp : a = p
      · subst hp
        rw [lookup_eq_none a rest hnd.1]
        simp [lookup, GoMap.get_set_self]
      · have hp' : p ≠ a := fun h => hp h.symm
        simp only [lookup, hp, if_false, GoMap.get_set_ne _ _ _ _ hp']
    · intro E hE
      rw [hframe E hE, GoMap.get_set_ne _ _ _ _ hE]

/-- With well-formed pairs the outer loop ends normally; afterwards every
exchange of the override is mapped to a map with the override's content for it,
and every other entry of the table is as before. -/
theorem mergeOverride_ok (x : Externals) :
    ∀ (ov : List (String × GoMap String String)) (table : SymbolTable),
      (∀ e ∈ ov, ∀ q ∈ e.2.entries, x.pairError q.1 = none) →
      (ov.map Prod.fst).Nodup →
      ∃ table1 : SymbolTable,
        mergeOverride x ov table = (.ok (), table1)
        ∧ (∀ E m, lookup E ov = some m →
            ∃ inner : GoMap Pair Symbol, table1.get E = some inner ∧ ∀ p, inner.get p = m.get p)
        ∧ (∀ E, lookup E ov = none → table1.get E = table.get E) := by
  intro ov
  induction ov with
  | nil =>
    intro table _ _
    exact ⟨table, rfl, fun E m h => by simp [lookup] at h, fun _ _ => rfl⟩
  | cons e rest ih =>
    obtain ⟨ex, sm⟩ := e
    intro table hwf hnd
    rw [List.map_cons, List.nodup_cons] at hnd
    obtain ⟨table1, inner1, hrun1, hg1, hin1, hframe1⟩ :=
      mergePairs_ok x ex sm.entries (table.set ex GoMap.empty) GoMap.empty
        (hwf (ex, sm) (List.mem_cons_self _ _)) sm.nodup (GoMap.get_set_self _ _ _)
    obtain ⟨table2, hrun2, hov2, hframe2⟩ :=
      ih table1 (fun e he => hwf e (List.mem_cons_of_mem _ he)) hnd.2
    refine ⟨table2, ?_, ?_, ?_⟩
    · simp only [mergeOverride, hrun1]
      exact hrun2
    · intro E m hE
      by_cases hex : ex = E
      · subst hex
        simp only [lookup, if_true, Option.some.injEq] at hE
        subst hE
        refine ⟨inner1, ?_, ?_⟩
        · rw [hframe2 ex (lookup_eq_none ex rest hnd.1)]
          exact hg1
        · intro p
          rw [hin1 p]
          unfold GoMap.get
          cases lookup p sm.entries <;> rfl
      · simp only [lookup, hex, if_false] at hE
        exact hov2 E m hE
    · intro E hE
      by_cases hex : ex = E
      · simp [lookup, hex] at hE
      · simp only [lookup, hex, if_false] at hE
        rw [hframe2 E hE, hframe1 E (fun h => hex h.symm),
          GoMap.get_set_ne _ _ _ _ (fun h => hex h.symm)]

/-! ## The paths through Get -/

theorem Get_symbols_error (x : Externals) (env : Env) (table : SymbolTable)
    (h : x.unmarshalSymbols (env "EXCHANGE_SYMBOLS_MAP") = none) :
    Get x env table
      = (.returned none (some "failed to parse EXCHANGE_SYMBOLS_MAP: invalid json"), table) := by
  simp only [Get, h]

/-- When the override decodes and its pairs are well-formed, the loops end
normally and leave the table described by `mergeOverride_ok`. -/
theorem merge_of_wellFormed (x : Externals) (table : SymbolTable)
    (ov : GoMap String (GoMap String String)) (hwf : WellFormed x ov) :
    ∃ table1 : SymbolTable,
      mergeOverride x ov.entries table = (.ok (), table1)
      ∧ (∀ E m, ov.get E = some m →
          ∃ inner : GoMap Pair Symbol, table1.get E = some inner ∧ ∀ p, inner.get p = m.get p)
      ∧ (∀ E, ov.get E = none → table1.get E = table.get E) :=
  mergeOverride_ok x ov.entries table hwf ov.nodup

theorem Get_datasource_error (x : Externals) (env : Env) (table table1 : SymbolTable)
    (ov : GoMap String (GoMap String String))
    (hparse : x.unmarshalSymbols (env "EXCHANGE_SYMBOLS_MAP") = some ov)
    (hmerge : mergeOverride x ov.entries table = (.ok (), table1))
    (hne : env "DATASOURCE_CONFIG_MAP" ≠ "")
    (hds : x.unmarshalRaw (env "DATASOURCE_CONFIG_MAP") = none) :
    Get x env table
      = (.returned none (some "failed to parse DATASOURCE_CONFIG_MAP: invalid json"), table1) := by
  simp only [Get, hparse, hmerge, hne, hds, ne_eq, not_false_eq_true, if_true]

/-- The path of `Get` that reaches `return conf, conf.Validate()`, with every
field of the returned `Config`. -/
theorem Get_returns_conf (x : Externals) (env : Env) (table table1 : SymbolTable)
    (ov : GoMap String (GoMap String String)) (ds : Option (GoMap String RawMessage))
    (hparse : x.unmarshalSymbols (env "EXCHANGE_SYMBOLS_MAP") = some ov)
    (hmerge : mergeOverride x ov.entries table = (.ok (), table1))
    (hds : DatasourceParses x env ds) :
    ∃ conf : Config,
      Get x env table = (.returned (some conf) conf.Validate, table1)
      ∧ conf.ExchangesToPairToSymbolMap = some table1
      ∧ conf.DataSourceConfigMap = ds
      ∧ conf.GRPCEndpoint = env "GRPC_ENDPOINT"
      ∧ conf.WebsocketEndpoint = env "WEBSOCKET_ENDPOINT"
      ∧ conf.FeederMnemonic = env "FEEDER_MNEMONIC"
      ∧ conf.ChainID = env "CHAIN_ID"
      ∧ conf.ValidatorAddr =
          (if env "VALIDATOR_ADDRESS" = "" then none
           else x.valAddressFromBech32 (env "VALIDATOR_ADDRESS"))
      ∧ conf.EnableTLS = decide (env "ENABLE_TLS" = "true") := by
  have hp : (if env "DATASOURCE_CONFIG_MAP" ≠ "" then x.unmarshalRaw (env "DATASOURCE_CONFIG_MAP")
      else some (some GoMap.empty)) = some ds := by
    rcases hds with ⟨h1, h2⟩ | ⟨h1, h2⟩
    · simp [h1, h2]
    · simp [h1, h2]
  refine ⟨{ ExchangesToPairToSymbolMap := some table1,
            DataSourceConfigMap := ds,
            GRPCEndpoint := env "GRPC_ENDPOINT",
            WebsocketEndpoint := env "WEBSOCKET_ENDPOINT",
            FeederMnemonic := env "FEEDER_MNEMONIC",
            ChainID := env "CHAIN_ID",
            ValidatorAddr :=
              if env "VALIDATOR_ADDRESS" = "" then none
              else x.valAddressFromBech32 (env "VALIDATOR_ADDRESS"),
            EnableTLS := decide (env "ENABLE_TLS" = "true") },
    ?_, rfl, rfl, rfl, rfl, rfl, rfl, rfl, rfl⟩
  by_cases hv : env "VALIDATOR_ADDRESS" = ""
  · simp only [Get, hparse, hmerge, hp, hv, ne_eq, not_true_eq_false, if_false, if_true,
      Config.new]
  · cases hb : x.valAddressFromBech32 (env "VALIDATOR_ADDRESS") with
    | none =>
      simp only [Get, hparse, hmerge, hp, hv, hb, ne_eq, not_false_eq_true, if_true, if_false,
        Config.new]
    | some a =>
      simp only [Get, hparse, hmerge, hp, hv, hb, ne_eq, not_false_eq_true, if_true, if_false,
        Config.new]

theorem Get_panics (x : Externals) (env : Env) (table table1 : SymbolTable)
    (ov : GoMap String (GoMap String String)) (e : String)
    (hparse : x.unmarshalSymbols (env "EXCHANGE_SYMBOLS_MAP") = some ov)
    (hmerge : mergeOverride x ov.entries table = (.panic e, table1)) :
    Get x env table = (.panicked e, table1) := by
  simp only [Get, hparse, hmerge]

theorem validate_eq_none (c : Config) (h : c.Validate = none) :
    c.ChainID ≠ "" ∧ c.FeederMnemonic ≠ "" ∧ c.WebsocketEndpoint ≠ "" ∧ c.GRPCEndpoint ≠ "" := by
  unfold Config.Validate at h
  by_cases h1 : c.ChainID = "" <;> by_cases h2 : c.FeederMnemonic = ""
    <;> by_cases h3 : c.WebsocketEndpoint = "" <;> by_cases h4 : c.GRPCEndpoint = ""
    <;> simp [h1, h2, h3, h4] at h ⊢

theorem validate_of_nonempty (c : Config) (h1 : c.ChainID ≠ "") (h2 : c.FeederMnemonic ≠ "")
    (h3 : c.WebsocketEndpoint ≠ "") (h4 : c.GRPCEndpoint ≠ "") : c.Validate = none := by
  simp [Config.Validate, h1, h2, h3, h4]

/-- With the override decoded, its pairs well-formed, the datasource variable
decoded and the required variables set, `Get` returns a `Config` and no error. -/
theorem Get_succeeds (x : Externals) (env : Env) (table : SymbolTable)
    (ov : GoMap String (GoMap String String)) (ds : Option (GoMap String RawMessage))
    (hparse : x.unmarshalSymbols (env "EXCHANGE_SYMBOLS_MAP") = some ov)
    (hwf : WellFormed x ov) (hds : DatasourceParses x env ds) (hreq : RequiredSet env) :
    ∃ (conf : Config) (table1 : SymbolTable),
      Get x env table = (.returned (some conf) none, table1)
      ∧ mergeOverride x ov.entries table = (.ok (), table1)
      ∧ conf.ExchangesToPairToSymbolMap = some table1
      ∧ conf.DataSourceConfigMap = ds
      ∧ conf.ValidatorAddr =
          (if env "VALIDATOR_ADDRESS" = "" then none
           else x.valAddressFromBech32 (env "VALIDATOR_ADDRESS"))
      ∧ conf.EnableTLS = decide (env "ENABLE_TLS" = "true") := by
  obtain ⟨table1, hmerge, -, -⟩ := merge_of_wellFormed x table ov hwf
  obtain ⟨conf, hget, htbl, hdsf, hg, hw, hf, hc, hva, htls⟩ :=
    Get_returns_conf x env table table1 ov ds hparse hmerge hds
  have hv : conf.Validate = none :=
    validate_of_nonempty conf (hc ▸ hreq.1) (hf ▸ hreq.2.1) (hw ▸ hreq.2.2.1) (hg ▸ hreq.2.2.2)
  rw [hv] at hget
  exact ⟨conf, table1, hget, hmerge, htbl, hdsf, hva, htls⟩

/-- The entries of the compiled-in table: the three exchanges of the literal,
nothing else. -/
theorem defaultExchangeSymbolsMap_get (x : Externals) (hx : x.DistinctSources) (X : String) :
    (defaultExchangeSymbolsMap x).get X =
      if X = x.Bitfinex then some bitfinexSymbols
      else if X = x.GateIo then some gateIoSymbols
      else if X = x.Okex then some okexSymbols
      else none := by
  obtain ⟨hbg, hbo, hgo⟩ := hx
  simp only [defaultExchangeSymbolsMap, GoMap.ofList, List.foldl]
  by_cases ho : X = x.Okex
  · subst ho
    rw [GoMap.get_set_self]
    simp [Ne.symm hbo, Ne.symm hgo]
  · rw [GoMap.get_set_ne _ _ _ _ ho]
    by_cases hg : X = x.GateIo
    · subst hg
      rw [GoMap.get_set_self]
      simp [Ne.symm hbg]
    · rw [GoMap.get_set_ne _ _ _ _ hg]
      by_cases hb : X = x.Bitfinex
      · subst hb
        rw [GoMap.get_set_self]
        simp
      · rw [GoMap.get_set_ne _ _ _ _ hb]
        simp [hb, hg, ho, GoMap.get_empty]

/-- An override without exchanges leaves the table as the call found it, and
that table is the one the returned `Config` shows. -/
theorem Get_empty_override (x : Externals) (env : Env) (table : SymbolTable)
    (ds : Option (GoMap String RawMessage))
    (hparse : x.unmarshalSymbols (env "EXCHANGE_SYMBOLS_MAP") = some GoMap.empty)
    (hds : DatasourceParses x env ds) :
    ∃ conf : Config,
      Get x env table = (.returned (some conf) conf.Validate, table)
      ∧ conf.ExchangesToPairToSymbolMap = some table := by
  obtain ⟨conf, hget, htbl, -⟩ :=
    Get_returns_conf x env table table GoMap.empty ds hparse rfl hds
  exact ⟨conf, hget, htbl⟩

theorem validate_congr (c d : Config) (h1 : c.ChainID = d.ChainID)
    (h2 : c.FeederMnemonic = d.FeederMnemonic) (h3 : c.WebsocketEndpoint = d.WebsocketEndpoint)
    (h4 : c.GRPCEndpoint = d.GRPCEndpoint) : c.Validate = d.Validate := by
  simp only [Config.Validate, h1, h2, h3, h4]

theorem setenv_other (env : Env) (key value k : String) (h : k ≠ key) :
    (env.setenv key value) k = env k := by
  simp [Env.setenv, h]

/-- The value of `VALIDATOR_ADDRESS` has no part in the error result of `Get`, in
whether it panics, or in the table it leaves. -/
theorem Get_setenv_validator (x : Externals) (env : Env) (table : SymbolTable) (v : String) :
    (Get x (env.setenv "VALIDATOR_ADDRESS" v) table).1.error = (Get x env table).1.error
    ∧ (Get x (env.setenv "VALIDATOR_ADDRESS" v) table).1.panics = (Get x env table).1.panics
    ∧ (Get x (env.setenv "VALIDATOR_ADDRESS" v) table).2 = (Get x env table).2 := by
  have hsym : (env.setenv "VALIDATOR_ADDRESS" v) "EXCHANGE_SYMBOLS_MAP"
      = env "EXCHANGE_SYMBOLS_MAP" := setenv_other env _ v _ (by decide)
  have hdsm : (env.setenv "VALIDATOR_ADDRESS" v) "DATASOURCE_CONFIG_MAP"
      = env "DATASOURCE_CONFIG_MAP" := setenv_other env _ v _ (by decide)
  have hc : (env.setenv "VALIDATOR_ADDRESS" v) "CHAIN_ID" = env "CHAIN_ID" :=
    setenv_other env _ v _ (by decide)
  have hf : (env.setenv "VALIDATOR_ADDRESS" v) "FEEDER_MNEMONIC" = env "FEEDER_MNEMONIC" :=
    setenv_other env _ v _ (by decide)
  have hw : (env.setenv "VALIDATOR_ADDRESS" v) "WEBSOCKET_ENDPOINT"
      = env "WEBSOCKET_ENDPOINT" := setenv_other env _ v _ (by decide)
  have hg : (env.setenv "VALIDATOR_ADDRESS" v) "GRPC_ENDPOINT" = env "GRPC_ENDPOINT" :=
    setenv_other env _ v _ (by decide)
  cases hparse : x.unmarshalSymbols (env "EXCHANGE_SYMBOLS_MAP") with
  | none =>
    rw [Get_symbols_error x env table hparse,
      Get_symbols_error x _ table (hsym.symm ▸ hparse)]
    exact ⟨rfl, rfl, rfl⟩
  | some ov =>
    cases hmerge : mergeOverride x ov.entries table with
    | mk r t1 =>
      cases r with
      | panic e =>
        rw [Get_panics x env table t1 ov e hparse hmerge,
          Get_panics x _ table t1 ov e (hsym.symm ▸ hparse) hmerge]
        exact ⟨rfl, rfl, rfl⟩
      | ok u =>
        by_cases he : env "DATASOURCE_CONFIG_MAP" = ""
        · obtain ⟨c1, h1, -, -, g1, w1, f1, c1id, -, -⟩ :=
            Get_returns_conf x env table t1 ov (some GoMap.empty) hparse hmerge
              (Or.inl ⟨he, rfl⟩)
          obtain ⟨c2, h2, -, -, g2, w2, f2, c2id, -, -⟩ :=
            Get_returns_conf x (env.setenv "VALIDATOR_ADDRESS" v) table t1 ov (some GoMap.empty)
              (hsym.symm ▸ hparse) hmerge (Or.inl ⟨hdsm.trans he, rfl⟩)
          rw [h1, h2]
          refine ⟨?_, rfl, rfl⟩
          exact validate_congr c2 c1 (by rw [c2id, c1id, hc]) (by rw [f2, f1, hf])
            (by rw [w2, w1, hw]) (by rw [g2, g1, hg])
        · cases hu : x.unmarshalRaw (env "DATASOURCE_CONFIG_MAP") with
          | none =>
            rw [Get_datasource_error x env table t1 ov hparse hmerge he hu,
              Get_datasource_error x _ table t1 ov (hsym.symm ▸ hparse) hmerge
                (hdsm.symm ▸ he) (hdsm.symm ▸ hu)]
            exact ⟨rfl, rfl, rfl⟩
          | some ds =>
            obtain ⟨c1, h1, -, -, g1, w1, f1, c1id, -, -⟩ :=
              Get_returns_conf x env table t1 ov ds hparse hmerge (Or.inr ⟨he, hu⟩)
            obtain ⟨c2, h2, -, -, g2, w2, f2, c2id, -, -⟩ :=
              Get_returns_conf x (env.setenv "VALIDATOR_ADDRESS" v) table t1 ov ds
                (hsym.symm ▸ hparse) hmerge (Or.inr ⟨hdsm.symm ▸ he, hdsm.symm ▸ hu⟩)
            rw [h1, h2]
            refine ⟨?_, rfl, rfl⟩
            exact validate_congr c2 c1 (by rw [c2id, c1id, hc]) (by rw [f2, f1, hf])
              (by rw [w2, w1, hw]) (by rw [g2, g1, hg])

/-! ## Malformed pairs -/

/-- When a pair still to visit is malformed, the inner loop panics with the
error `asset.TryNewPair` reports for one of the pairs. -/
theorem mergePairs_panics (x : Externals) (exchange : String) :
    ∀ (pairs : List (String × String)) (table : SymbolTable) (inner : GoMap Pair Symbol),
      (∃ q ∈ pairs, x.pairError q.1 ≠ none) →
      table.get exchange = some inner →
      ∃ (msg : String) (table1 : SymbolTable),
        mergePairs x exchange pairs table = (.panic msg, table1)
        ∧ ∃ q ∈ pairs, x.pairError q.1 = some msg := by
  intro pairs
  induction pairs with
  | nil =>
    intro table inner hbad _
    obtain ⟨q, hq, -⟩ := hbad
    simp at hq
  | cons e rest ih =>
    obtain ⟨a, b⟩ := e
    intro table inner hbad hget
    cases ha : x.pairError a with
    | some msg =>
      exact ⟨msg, table, by simp only [mergePairs, MustNewPair, ha],
        (a, b), List.mem_cons_self _ _, ha⟩
    | none =>
      have hrest : ∃ q ∈ rest, x.pairError q.1 ≠ none := by
        obtain ⟨q, hq, hne⟩ := hbad
        rcases List.mem_cons.1 hq with h | h
        · subst h
          exact absurd ha hne
        · exact ⟨q, h, hne⟩
      obtain ⟨msg, table1, hrun, q, hq, hmsg⟩ :=
        ih (table.set exchange (inner.set a b)) (inner.set a b) hrest
          (GoMap.get_set_self _ _ _)
      refine ⟨msg, table1, ?_, q, List.mem_cons_of_mem _ hq, hmsg⟩
      simp only [mergePairs, MustNewPair, ha, hget]
      exact hrun

/-- When some pair of the override is malformed, the outer loop panics with the
error `asset.TryNewPair` reports for one of the override's pairs. -/
theorem mergeOverride_panics (x : Externals) :
    ∀ (ov : List (String × GoMap String String)) (table : SymbolTable),
      (∃ e ∈ ov, ∃ q ∈ e.2.entries, x.pairError q.1 ≠ none) →
      (ov.map Prod.fst).Nodup →
      ∃ (msg : String) (table1 : SymbolTable),
        mergeOverride x ov table = (.panic msg, table1)
        ∧ ∃ e ∈ ov, ∃ q ∈ e.2.entries, x.pairError q.1 = some msg := by
  intro ov
  induction ov with
  | nil =>
    intro table hbad _
    obtain ⟨e, he, -⟩ := hbad
    simp at he
  | cons e rest ih =>
    obtain ⟨ex, sm⟩ := e
    intro table hbad hnd
    rw [List.map_cons, List.nodup_cons] at hnd
    by_cases hsm : ∃ q ∈ sm.entries, x.pairError q.1 ≠ none
    · obtain ⟨msg, table1, hrun, q, hq, hmsg⟩ :=
        mergePairs_panics x ex sm.entries (table.set ex GoMap.empty) GoMap.empty hsm
          (GoMap.get_set_self _ _ _)
      exact ⟨msg, table1, by simp only [mergeOverride, hrun],
        (ex, sm), List.mem_cons_self _ _, q, hq, hmsg⟩
    · have hwf : ∀ q ∈ sm.entries, x.pairError q.1 = none := by
        intro q hq
        by_contra hne
        exact hsm ⟨q, hq, hne⟩
      obtain ⟨table1, inner1, hrun1, -, -, -⟩ :=
        mergePairs_ok x ex sm.entries (table.set ex GoMap.empty) GoMap.empty hwf sm.nodup
          (GoMap.get_set_self _ _ _)
      have hrest : ∃ e ∈ rest, ∃ q ∈ e.2.entries, x.pairError q.1 ≠ none := by
        obtain ⟨e, he, q, hq, hne⟩ := hbad
        rcases List.mem_cons.1 he with h | h
        · subst h
          exact absurd ⟨q, hq, hne⟩ hsm
        · exact ⟨e, h, q, hq, hne⟩
      obtain ⟨msg, table2, hrun2, e, he, q, hq, hmsg⟩ := ih table1 hrest hnd.2
      refine ⟨msg, table2, ?_, e, List.mem_cons_of_mem _ he, q, hq, hmsg⟩
      simp only [mergeOverride, hrun1]
      exact hrun2

/-- An override that is not well-formed has a malformed pair. -/
theorem exists_malformed (x : Externals) (ov : GoMap String (GoMap String String))
    (h : ¬ WellFormed x ov) :
    ∃ e ∈ ov.entries, ∃ q ∈ e.2.entries, x.pairError q.1 ≠ none := by
  by_contra hno
  apply h
  intro e he q hq
  by_contra hne
  exact hno ⟨e, he, q, hq, hne⟩

/-! ## Every path through Get -/

theorem validate_messages (c : Config) :
    c.Validate = none ∨ c.Validate = some "no chain id"
    ∨ c.Validate = some "no feeder mnemonic" ∨ c.Validate = some "no websocket endpoint"
    ∨ c.Validate = some "no grpc endpoint" := by
  unfold Config.Validate
  by_cases h1 : c.ChainID = "" <;> by_cases h2 : c.FeederMnemonic = ""
    <;> by_cases h3 : c.WebsocketEndpoint = "" <;> by_cases h4 : c.GRPCEndpoint = ""
    <;> simp [h1, h2, h3, h4]

/-- The four ways a call of `Get` ends: the parse error of the override, a panic
of the merge loops, the parse error of the datasource variable, or the final
`return conf, conf.Validate()`. -/
theorem Get_cases (x : Externals) (env : Env) (table : SymbolTable) :
    (x.unmarshalSymbols (env "EXCHANGE_SYMBOLS_MAP") = none
      ∧ Get x env table
          = (.returned none (some "failed to parse EXCHANGE_SYMBOLS_MAP: invalid json"), table))
    ∨ (∃ (ov : GoMap String (GoMap String String)) (msg : String) (table1 : SymbolTable),
        x.unmarshalSymbols (env "EXCHANGE_SYMBOLS_MAP") = some ov
        ∧ mergeOverride x ov.entries table = (.panic msg, table1)
        ∧ Get x env table = (.panicked msg, table1))
    ∨ (∃ (ov : GoMap String (GoMap String String)) (table1 : SymbolTable),
        x.unmarshalSymbols (env "EXCHANGE_SYMBOLS_MAP") = some ov
        ∧ mergeOverride x ov.entries table = (.ok (), table1)
        ∧ Get x env table
            = (.returned none (some "failed to parse DATASOURCE_CONFIG_MAP: invalid json"),
                table1))
    ∨ (∃ (ov : GoMap String (GoMap String String)) (table1 : SymbolTable)
        (ds : Option (GoMap String RawMessage)) (conf : Config),
        x.unmarshalSymbols (env "EXCHANGE_SYMBOLS_MAP") = some ov
        ∧ mergeOverride x ov.entries table = (.ok (), table1)
        ∧ DatasourceParses x env ds
        ∧ Get x env table = (.returned (some conf) conf.Validate, table1)
        ∧ conf.ExchangesToPairToSymbolMap = some table1
        ∧ conf.EnableTLS = decide (env "ENABLE_TLS" = "true")) := by
  cases hparse : x.unmarshalSymbols (env "EXCHANGE_SYMBOLS_MAP") with
  | none => exact Or.inl ⟨rfl, Get_symbols_error x env table hparse⟩
  | some ov =>
    cases hmerge : mergeOverride x ov.entries table with
    | mk r t1 =>
      cases r with
      | panic msg =>
        exact Or.inr (Or.inl ⟨ov, msg, t1, rfl, hmerge,
          Get_panics x env table t1 ov msg hparse hmerge⟩)
      | ok u =>
        have hds : (∃ ds, DatasourceParses x env ds)
            ∨ (env "DATASOURCE_CONFIG_MAP" ≠ ""
                ∧ x.unmarshalRaw (env "DATASOURCE_CONFIG_MAP") = none) := by
          by_cases he : env "DATASOURCE_CONFIG_MAP" = ""
          · exact Or.inl ⟨some GoMap.empty, Or.inl ⟨he, rfl⟩⟩
          · cases hu : x.unmarshalRaw (env "DATASOURCE_CONFIG_MAP") with
            | none => exact Or.inr ⟨he, rfl⟩
            | some ds => exact Or.inl ⟨ds, Or.inr ⟨he, hu⟩⟩
        rcases hds with ⟨ds, hds⟩ | ⟨hne, hnone⟩
        · obtain ⟨conf, hget, htbl, -, -, -, -, -, -, htls⟩ :=
            Get_returns_conf x env table t1 ov ds hparse hmerge hds
          exact Or.inr (Or.inr (Or.inr ⟨ov, t1, ds, conf, rfl, hmerge, hds, hget, htbl, htls⟩))
        · exact Or.inr (Or.inr (Or.inl ⟨ov, t1, rfl, hmerge,
            Get_datasource_error x env table t1 ov hparse hmerge hne hnone⟩))

/-- Once the override decodes, the table a call of `Get` leaves is the table
the merge loops leave, however the call ends. -/
theorem Get_table (x : Externals) (env : Env) (table : SymbolTable)
    (ov : GoMap String (GoMap String String))
    (hparse : x.unmarshalSymbols (env "EXCHANGE_SYMBOLS_MAP") = some ov) :
    (Get x env table).2 = (mergeOverride x ov.entries table).2 := by
  rcases Get_cases x env table with ⟨hnone, -⟩ | ⟨ov1, msg, t1, hp, hm, hget⟩
    | ⟨ov1, t1, hp, hm, hget⟩ | ⟨ov1, t1, ds, conf, hp, hm, -, hget, -⟩
  · rw [hparse] at hnone
    simp at hnone
  all_goals
    rw [hparse] at hp
    simp only [Option.some.injEq] at hp
    subst hp
    rw [hget, hm]

/-- After a call of `Get` whose override has well-formed pairs and mentions `E`,
the package-level table maps `E` to the override's content for `E`, however the
call ends. -/
theorem Get_table_override (x : Externals) (env : Env) (table : SymbolTable)
    (ov : GoMap String (GoMap String String)) (E : String) (m : GoMap String String)
    (hparse : x.unmarshalSymbols (env "EXCHANGE_SYMBOLS_MAP") = some ov)
    (hwf : WellFormed x ov) (hE : ov.get E = some m) :
    ∃ inner : GoMap Pair Symbol,
      (Get x env table).2.get E = some inner ∧ ∀ p, inner.get p = m.get p := by
  obtain ⟨table1, hmerge, hov, -⟩ := merge_of_wellFormed x table ov hwf
  rw [Get_table x env table ov hparse, hmerge]
  exact hov E m hE

/-- A call of `Get` whose override has well-formed pairs and does not mention
`X` returns, when the datasource variable decodes, a `Config` whose table has
for `X` what the package-level table had when the call started. -/
theorem Get_frame (x : Externals) (env : Env) (table : SymbolTable)
    (ov : GoMap String (GoMap String String)) (ds : Option (GoMap String RawMessage)) (X : String)
    (hparse : x.unmarshalSymbols (env "EXCHANGE_SYMBOLS_MAP") = some ov)
    (hwf : WellFormed x ov) (hds : DatasourceParses x env ds) (hX : ov.get X = none) :
    ∃ (conf : Config) (err : Option String) (table1 tbl : SymbolTable),
      Get x env table = (.returned (some conf) err, table1)
      ∧ conf.ExchangesToPairToSymbolMap = some tbl
      ∧ tbl.get X = table.get X := by
  obtain ⟨table1, hmerge, -, hframe⟩ := merge_of_wellFormed x table ov hwf
  obtain ⟨conf, hget, htbl, -⟩ := Get_returns_conf x env table table1 ov ds hparse hmerge hds
  exact ⟨conf, conf.Validate, table1, table1, hget, htbl, hframe X hX⟩

/-! ## Theorems -/

/-- C1: `Validate` is the first-failure-wins reference over the four rules; it
answers "no chain id" whenever `ChainID` is empty, whatever the other fields
hold; and its answer does not change with `EnableTLS`, `ValidatorAddr`, the
symbol table or the datasource map. -/
theorem validate_first_failure (c : Config) :
    c.Validate = firstFailure c
    ∧ (∀ mnemonic ws grpc : String,
        Config.Validate { c with ChainID := "", FeederMnemonic := mnemonic,
                                 WebsocketEndpoint := ws, GRPCEndpoint := grpc }
          = some "no chain id")
    ∧ (∀ (tls : Bool) (val : Option ValAddress) (tbl : Option SymbolTable)
         (ds : Option (GoMap String RawMessage)),
        Config.Validate { c with EnableTLS := tls, ValidatorAddr := val,
                                 ExchangesToPairToSymbolMap := tbl,
                                 DataSourceConfigMap := ds }
          = c.Validate) := by
  refine ⟨?_, ?_, ?_⟩
  · simp only [Config.Validate, firstFailure, validationRules, List.find?]
    by_cases h1 : c.ChainID = "" <;> by_cases h2 : c.FeederMnemonic = ""
      <;> by_cases h3 : c.WebsocketEndpoint = "" <;> by_cases h4 : c.GRPCEndpoint = ""
      <;> simp [h1, h2, h3, h4]
  · intro _ _ _
    simp [Config.Validate]
  · intro _ _ _ _
    simp [Config.Validate]

/-- C2: whatever the environment and the content of the default table when the
call starts, a call of `Get` that returns a nil error returns a `Config` whose
`ChainID`, `FeederMnemonic`, `WebsocketEndpoint` and `GRPCEndpoint` are the
values of `CHAIN_ID`, `FEEDER_MNEMONIC`, `WEBSOCKET_ENDPOINT` and
`GRPC_ENDPOINT`, none of them empty. -/
theorem get_no_error_required_fields (x : Externals) (env : Env) (table table1 : SymbolTable)
    (c : Option Config) (h : Get x env table = (.returned c none, table1)) :
    ∃ conf : Config, c = some conf
      ∧ conf.ChainID = env "CHAIN_ID" ∧ conf.ChainID ≠ ""
      ∧ conf.FeederMnemonic = env "FEEDER_MNEMONIC" ∧ conf.FeederMnemonic ≠ ""
      ∧ conf.WebsocketEndpoint = env "WEBSOCKET_ENDPOINT" ∧ conf.WebsocketEndpoint ≠ ""
      ∧ conf.GRPCEndpoint = env "GRPC_ENDPOINT" ∧ conf.GRPCEndpoint ≠ "" := by
  cases hparse : x.unmarshalSymbols (env "EXCHANGE_SYMBOLS_MAP") with
  | none =>
    rw [Get_symbols_error x env table hparse] at h
    simp at h
  | some ov =>
    cases hmerge : mergeOverride x ov.entries table with
    | mk r t1 =>
      cases r with
      | panic e =>
        rw [Get_panics x env table t1 ov e hparse hmerge] at h
        simp at h
      | ok u =>
        have hds : (∃ ds, DatasourceParses x env ds)
            ∨ (env "DATASOURCE_CONFIG_MAP" ≠ ""
                ∧ x.unmarshalRaw (env "DATASOURCE_CONFIG_MAP") = none) := by
          by_cases he : env "DATASOURCE_CONFIG_MAP" = ""
          · exact Or.inl ⟨some GoMap.empty, Or.inl ⟨he, rfl⟩⟩
          · cases hu : x.unmarshalRaw (env "DATASOURCE_CONFIG_MAP") with
            | none => exact Or.inr ⟨he, rfl⟩
            | some ds => exact Or.inl ⟨ds, Or.inr ⟨he, hu⟩⟩
        rcases hds with ⟨ds, hds⟩ | ⟨hne, hnone⟩
        · obtain ⟨conf, hget, -, -, hg, hw, hf, hc, -, -⟩ :=
            Get_returns_conf x env table t1 ov ds hparse hmerge hds
          rw [hget] at h
          simp only [Prod.mk.injEq, GetResult.returned.injEq] at h
          obtain ⟨⟨hconf, hval⟩, -⟩ := h
          obtain ⟨v1, v2, v3, v4⟩ := validate_eq_none conf hval
          exact ⟨conf, hconf.symm, hc, v1, hf, v2, hw, v3, hg, v4⟩
        · rw [Get_datasource_error x env table t1 ov hparse hmerge hne hnone] at h
          simp at h

/-- C2, at an environment with the required variables set and `{}` as override. -/
theorem get_no_error_required_fields_witness :
    ∃ conf : Config,
      (Get sampleExternals noOverrideEnv (defaultExchangeSymbolsMap sampleExternals)).1.conf
        = some conf
      ∧ conf.ChainID = noOverrideEnv "CHAIN_ID" ∧ conf.ChainID ≠ ""
      ∧ conf.FeederMnemonic = noOverrideEnv "FEEDER_MNEMONIC" ∧ conf.FeederMnemonic ≠ ""
      ∧ conf.WebsocketEndpoint = noOverrideEnv "WEBSOCKET_ENDPOINT" ∧ conf.WebsocketEndpoint ≠ ""
      ∧ conf.GRPCEndpoint = noOverrideEnv "GRPC_ENDPOINT" ∧ conf.GRPCEndpoint ≠ "" :=
  get_no_error_required_fields sampleExternals noOverrideEnv
    (defaultExchangeSymbolsMap sampleExternals)
    (Get sampleExternals noOverrideEnv (defaultExchangeSymbolsMap sampleExternals)).2
    (Get sampleExternals noOverrideEnv (defaultExchangeSymbolsMap sampleExternals)).1.conf
    (by rfl)

/-- C3: when `EXCHANGE_SYMBOLS_MAP` decodes to an override with well-formed
pairs and the datasource variable decodes, `Get` returns a `Config` whose table
maps every exchange `E` of the override to a map with exactly the override's
content for `E`: the same pairs with the same symbols, and no pair the override
does not list for `E`, whatever the table held for `E` before (an entry of the
default table or nothing). -/
theorem get_override_replaces_exchange (x : Externals) (env : Env) (table : SymbolTable)
    (ov : GoMap String (GoMap String String)) (ds : Option (GoMap String RawMessage))
    (E : String) (m : GoMap String String)
    (hparse : x.unmarshalSymbols (env "EXCHANGE_SYMBOLS_MAP") = some ov)
    (hwf : WellFormed x ov) (hds : DatasourceParses x env ds)
    (hE : ov.get E = some m) :
    ∃ (conf : Config) (err : Option String) (table1 tbl : SymbolTable)
      (inner : GoMap Pair Symbol),
      Get x env table = (.returned (some conf) err, table1)
      ∧ conf.ExchangesToPairToSymbolMap = some tbl
      ∧ tbl.get E = some inner
      ∧ (∀ (p : Pair) (s : Symbol), inner.get p = some s ↔ m.get p = some s)
      ∧ (∀ p : Pair, m.get p = none → inner.get p = none) := by
  obtain ⟨table1, hmerge, hov, -⟩ := merge_of_wellFormed x table ov hwf
  obtain ⟨conf, hget, htbl, -⟩ := Get_returns_conf x env table table1 ov ds hparse hmerge hds
  obtain ⟨inner, hin, hsame⟩ := hov E m hE
  exact ⟨conf, conf.Validate, table1, table1, inner, hget, htbl, hin,
    fun p s => by rw [hsame p], fun p hp => by rw [hsame p, hp]⟩

/-- C3, at the override of `bitfinex` by one pair, on the compiled-in table. -/
theorem get_override_replaces_exchange_witness :
    ∃ (conf : Config) (err : Option String) (table1 tbl : SymbolTable)
      (inner : GoMap Pair Symbol),
      Get sampleExternals overrideEnv (defaultExchangeSymbolsMap sampleExternals)
        = (.returned (some conf) err, table1)
      ∧ conf.ExchangesToPairToSymbolMap = some tbl
      ∧ tbl.get "bitfinex" = some inner
      ∧ (∀ (p : Pair) (s : Symbol), inner.get p = some s
          ↔ (GoMap.empty.set "ubtc:uusd" "tXBTUSD" : GoMap String String).get p = some s)
      ∧ (∀ p : Pair, (GoMap.empty.set "ubtc:uusd" "tXBTUSD" : GoMap String String).get p = none
          → inner.get p = none) :=
  get_override_replaces_exchange sampleExternals overrideEnv
    (defaultExchangeSymbolsMap sampleExternals) sampleOverride (some GoMap.empty) "bitfinex"
    (GoMap.empty.set "ubtc:uusd" "tXBTUSD") rfl (by unfold WellFormed; decide)
    (Or.inl ⟨rfl, rfl⟩) rfl

/-- On a call that starts from the compiled-in table, as the first call of a
process does, when `EXCHANGE_SYMBOLS_MAP` decodes to an override with well-formed
pairs and the datasource variable decodes, the table of the returned `Config`
maps every exchange `X` that the override does not mention to the compiled-in
map of `X`: the five pairs of Bitfinex, GateIo or Okex, and no entry for any
other `X`. -/
theorem get_keeps_default_exchange (x : Externals) (env : Env)
    (ov : GoMap String (GoMap String String)) (ds : Option (GoMap String RawMessage)) (X : String)
    (hx : x.DistinctSources)
    (hparse : x.unmarshalSymbols (env "EXCHANGE_SYMBOLS_MAP") = some ov)
    (hwf : WellFormed x ov) (hds : DatasourceParses x env ds)
    (hX : ov.get X = none) :
    ∃ (conf : Config) (err : Option String) (table1 tbl : SymbolTable),
      Get x env (defaultExchangeSymbolsMap x) = (.returned (some conf) err, table1)
      ∧ conf.ExchangesToPairToSymbolMap = some tbl
      ∧ tbl.get X = (defaultExchangeSymbolsMap x).get X
      ∧ tbl.get X =
          (if X = x.Bitfinex then
            some (GoMap.ofList
              [ ("ubtc:uusd", "tBTCUSD"), ("ueth:uusd", "tETHUSD"), ("uusdc:uusd", "tUDCUSD"),
                ("uusdt:uusd", "tUSTUSD"), ("uatom:uusd", "tATOUSD") ])
          else if X = x.GateIo then
            some (GoMap.ofList
              [ ("ubtc:uusd", "BTC_USDT"), ("ueth:uusd", "ETH_USDT"), ("uusdc:uusd", "USDC_USDT"),
                ("uusdt:uusd", "USDT_USD"), ("uatom:uusd", "ATOM_USDT") ])
          else if X = x.Okex then
            some (GoMap.ofList
              [ ("ubtc:uusd", "BTC-USDT"), ("ueth:uusd", "ETH-USDT"), ("uusdc:uusd", "USDC-USDT"),
                ("uusdt:uusd", "USDT-USDC"), ("uatom:uusd", "ATOM-USDT") ])
          else none) := by
  obtain ⟨table1, hmerge, -, hframe⟩ :=
    merge_of_wellFormed x (defaultExchangeSymbolsMap x) ov hwf
  obtain ⟨conf, hget, htbl, -⟩ :=
    Get_returns_conf x env (defaultExchangeSymbolsMap x) table1 ov ds hparse hmerge hds
  refine ⟨conf, conf.Validate, table1, table1, hget, htbl, hframe X hX, ?_⟩
  rw [hframe X hX, defaultExchangeSymbolsMap_get x hx X]
  rfl

/-- The first call of a process, at the override of `bitfinex` alone: `okex`
keeps its compiled-in map. -/
theorem get_keeps_default_exchange_witness :
    ∃ (conf : Config) (err : Option String) (table1 tbl : SymbolTable),
      Get sampleExternals overrideEnv (defaultExchangeSymbolsMap sampleExternals)
        = (.returned (some conf) err, table1)
      ∧ conf.ExchangesToPairToSymbolMap = some tbl
      ∧ tbl.get "okex" = some okexSymbols := by
  obtain ⟨conf, err, table1, tbl, h1, h2, -, h4⟩ :=
    get_keeps_default_exchange sampleExternals overrideEnv sampleOverride (some GoMap.empty)
      "okex"
      (by unfold Externals.DistinctSources; decide) rfl (by unfold WellFormed; decide)
      (Or.inl ⟨rfl, rfl⟩) rfl
  exact ⟨conf, err, table1, tbl, h1, h2, h4.trans rfl⟩

/-- C4: on a later call of `Get` in the same process an exchange that the
override does not mention is not mapped to its compiled-in map.  After a call
that overrode `bitfinex`, a call whose override mentions only `binance` returns
for `bitfinex` the single pair of the earlier override, not the five compiled-in
pairs; after a call that overrode `binance`, a call with `{}` returns an entry
for `binance`, which is not a compiled-in exchange. -/
theorem get_later_call_not_default :
    (∃ (conf : Config) (tbl : SymbolTable) (inner : GoMap Pair Symbol),
      (Get newExchangeExternals newExchangeEnv
          (Get newExchangeExternals overrideEnv
            (defaultExchangeSymbolsMap newExchangeExternals)).2).1
        = .returned (some conf) none
      ∧ newExchangeExternals.unmarshalSymbols (newExchangeEnv "EXCHANGE_SYMBOLS_MAP")
          = some newExchangeOverride
      ∧ WellFormed newExchangeExternals newExchangeOverride
      ∧ newExchangeOverride.get "bitfinex" = none
      ∧ conf.ExchangesToPairToSymbolMap = some tbl
      ∧ tbl.get "bitfinex" = some inner
      ∧ inner.get "ueth:uusd" = none
      ∧ inner.get "ubtc:uusd" = some "tXBTUSD"
      ∧ ((defaultExchangeSymbolsMap newExchangeExternals).get "bitfinex").map
          (fun d => (d.get "ueth:uusd", d.get "ubtc:uusd"))
          = some (some "tETHUSD", some "tBTCUSD"))
    ∧ (∃ (conf : Config) (tbl : SymbolTable) (inner : GoMap Pair Symbol),
      (Get newExchangeExternals noOverrideEnv
          (Get newExchangeExternals newExchangeEnv
            (defaultExchangeSymbolsMap newExchangeExternals)).2).1
        = .returned (some conf) none
      ∧ newExchangeExternals.unmarshalSymbols (noOverrideEnv "EXCHANGE_SYMBOLS_MAP")
          = some GoMap.empty
      ∧ (GoMap.empty : GoMap String (GoMap String String)).get "binance" = none
      ∧ conf.ExchangesToPairToSymbolMap = some tbl
      ∧ tbl.get "binance" = some inner
      ∧ inner.get "ubtc:uusd" = some "BTCUSDT"
      ∧ (defaultExchangeSymbolsMap newExchangeExternals).get "binance" = none) :=
  ⟨⟨_, _, _, rfl, rfl, by unfold WellFormed; decide, rfl, rfl, rfl, rfl, rfl, rfl⟩,
   ⟨_, _, _, rfl, rfl, rfl, rfl, rfl, rfl, rfl⟩⟩

/-- C5: when `json.Unmarshal` rejects the value of `EXCHANGE_SYMBOLS_MAP`, and in
particular when the variable is unset or empty (the empty input is not JSON),
`Get` returns at once the error
"failed to parse EXCHANGE_SYMBOLS_MAP: invalid json" and a nil `Config`,
whatever the other variables hold, and leaves the default table as it was. -/
theorem get_symbols_parse_error (x : Externals) (env : Env) (table : SymbolTable)
    (hempty : x.unmarshalSymbols "" = none)
    (h : env "EXCHANGE_SYMBOLS_MAP" = ""
          ∨ x.unmarshalSymbols (env "EXCHANGE_SYMBOLS_MAP") = none) :
    Get x env table
      = (.returned none (some "failed to parse EXCHANGE_SYMBOLS_MAP: invalid json"), table) := by
  apply Get_symbols_error
  rcases h with h | h
  · rw [h]; exact hempty
  · exact h

/-- C5, at an environment that leaves `EXCHANGE_SYMBOLS_MAP` unset. -/
theorem get_symbols_parse_error_witness :
    Get sampleExternals requiredOnlyEnv (defaultExchangeSymbolsMap sampleExternals)
      = (.returned none (some "failed to parse EXCHANGE_SYMBOLS_MAP: invalid json"),
          defaultExchangeSymbolsMap sampleExternals) :=
  get_symbols_parse_error sampleExternals requiredOnlyEnv
    (defaultExchangeSymbolsMap sampleExternals) rfl (Or.inl rfl)

/-- C6: a call of `Get` with `EXCHANGE_SYMBOLS_MAP={}` that follows a call whose
override replaced `bitfinex` returns, without error, a table in which `bitfinex`
has lost the compiled-in pair `ueth:uusd`: the table is the one the earlier call
left, not the compiled-in one. -/
theorem get_empty_override_after_override :
    ∃ (conf : Config) (tbl : SymbolTable) (inner : GoMap Pair Symbol),
      (Get sampleExternals noOverrideEnv
          (Get sampleExternals overrideEnv (defaultExchangeSymbolsMap sampleExternals)).2).1
        = .returned (some conf) none
      ∧ conf.ExchangesToPairToSymbolMap = some tbl
      ∧ tbl.get "bitfinex" = some inner
      ∧ inner.get "ueth:uusd" = none
      ∧ inner.get "ubtc:uusd" = some "tXBTUSD"
      ∧ ((defaultExchangeSymbolsMap sampleExternals).get "bitfinex").map
          (fun d => (d.get "ueth:uusd", d.get "ubtc:uusd"))
          = some (some "tETHUSD", some "tBTCUSD") :=
  ⟨_, _, _, rfl, rfl, rfl, rfl, rfl, rfl⟩

/-- C7: with the four required variables set and every optional variable unset,
`EXCHANGE_SYMBOLS_MAP` reads as the empty string, which `json.Unmarshal`
rejects, and `Get` returns the parse error and a nil `Config`. -/
theorem get_required_only_fails (x : Externals) (env : Env) (table : SymbolTable)
    (hempty : x.unmarshalSymbols "" = none)
    (_hreq : RequiredSet env)
    (_htls : env "ENABLE_TLS" = "") (hsym : env "EXCHANGE_SYMBOLS_MAP" = "")
    (_hdsm : env "DATASOURCE_CONFIG_MAP" = "") (_hval : env "VALIDATOR_ADDRESS" = "") :
    Get x env table
      = (.returned none (some "failed to parse EXCHANGE_SYMBOLS_MAP: invalid json"), table) := by
  apply Get_symbols_error
  rw [hsym]
  exact hempty

/-- C7, at `requiredOnlyEnv` on the compiled-in table. -/
theorem get_required_only_fails_witness :
    Get sampleExternals requiredOnlyEnv (defaultExchangeSymbolsMap sampleExternals)
      = (.returned none (some "failed to parse EXCHANGE_SYMBOLS_MAP: invalid json"),
          defaultExchangeSymbolsMap sampleExternals) :=
  get_required_only_fails sampleExternals requiredOnlyEnv
    (defaultExchangeSymbolsMap sampleExternals) rfl (by unfold RequiredSet; decide)
    rfl rfl rfl rfl

/-- C8: when both JSON variables decode, the pairs are well-formed and a required
variable is empty, `Get` returns the validation error together with a non-nil
`Config`, the one it assembled, on which `Validate` reports that error. -/
theorem get_validation_error_with_config (x : Externals) (env : Env) (table : SymbolTable)
    (ov : GoMap String (GoMap String String)) (ds : Option (GoMap String RawMessage))
    (hparse : x.unmarshalSymbols (env "EXCHANGE_SYMBOLS_MAP") = some ov)
    (hwf : WellFormed x ov) (hds : DatasourceParses x env ds)
    (hmissing : ¬ RequiredSet env) :
    ∃ (conf : Config) (e : String) (table1 : SymbolTable),
      Get x env table = (.returned (some conf) (some e), table1)
      ∧ conf.Validate = some e
      ∧ conf.ChainID = env "CHAIN_ID" := by
  obtain ⟨table1, hmerge, -, -⟩ := merge_of_wellFormed x table ov hwf
  obtain ⟨conf, hget, -, -, hg, hw, hf, hc, -, -⟩ :=
    Get_returns_conf x env table table1 ov ds hparse hmerge hds
  cases hv : conf.Validate with
  | none =>
    obtain ⟨v1, v2, v3, v4⟩ := validate_eq_none conf hv
    exact absurd ⟨hc ▸ v1, hf ▸ v2, hw ▸ v3, hg ▸ v4⟩ hmissing
  | some e =>
    rw [hv] at hget
    exact ⟨conf, e, table1, hget, hv, hc⟩

/-- C8, at an environment with `{}` as override and `CHAIN_ID` empty. -/
theorem get_validation_error_with_config_witness :
    ∃ (conf : Config) (e : String) (table1 : SymbolTable),
      Get sampleExternals (noOverrideEnv.setenv "CHAIN_ID" "")
          (defaultExchangeSymbolsMap sampleExternals)
        = (.returned (some conf) (some e), table1)
      ∧ conf.Validate = some e
      ∧ conf.ChainID = (noOverrideEnv.setenv "CHAIN_ID" "") "CHAIN_ID" :=
  get_validation_error_with_config sampleExternals (noOverrideEnv.setenv "CHAIN_ID" "")
    (defaultExchangeSymbolsMap sampleExternals) GoMap.empty (some GoMap.empty) rfl
    (by unfold WellFormed; decide) (Or.inl ⟨rfl, rfl⟩) (by unfold RequiredSet; decide)

/-- C9: when `EXCHANGE_SYMBOLS_MAP` decodes with well-formed pairs and the four
required variables are set, an unset or empty `DATASOURCE_CONFIG_MAP` gives no
error and a `Config` whose `DataSourceConfigMap` is a map (not nil) without
entries, and a non-empty value that `json.Unmarshal` rejects gives the error
"failed to parse DATASOURCE_CONFIG_MAP: invalid json" and a nil `Config`. -/
theorem get_datasource_cases (x : Externals) (env : Env) (table : SymbolTable)
    (ov : GoMap String (GoMap String String))
    (hparse : x.unmarshalSymbols (env "EXCHANGE_SYMBOLS_MAP") = some ov)
    (hwf : WellFormed x ov) (hreq : RequiredSet env) :
    (env "DATASOURCE_CONFIG_MAP" = "" →
      ∃ (conf : Config) (table1 : SymbolTable) (ds : GoMap String RawMessage),
        Get x env table = (.returned (some conf) none, table1)
        ∧ conf.DataSourceConfigMap = some ds ∧ ds.len = 0)
    ∧ (env "DATASOURCE_CONFIG_MAP" ≠ "" →
        x.unmarshalRaw (env "DATASOURCE_CONFIG_MAP") = none →
        ∃ table1 : SymbolTable,
          Get x env table
            = (.returned none (some "failed to parse DATASOURCE_CONFIG_MAP: invalid json"),
                table1)) := by
  refine ⟨fun he => ?_, fun hne hu => ?_⟩
  · obtain ⟨conf, table1, hget, -, -, hdsf, -, -⟩ :=
      Get_succeeds x env table ov (some GoMap.empty) hparse hwf (Or.inl ⟨he, rfl⟩) hreq
    exact ⟨conf, table1, GoMap.empty, hget, hdsf, rfl⟩
  · obtain ⟨table1, hmerge, -, -⟩ := merge_of_wellFormed x table ov hwf
    exact ⟨table1, Get_datasource_error x env table table1 ov hparse hmerge hne hu⟩

/-- C9, at `DATASOURCE_CONFIG_MAP` unset and at `DATASOURCE_CONFIG_MAP=not json`. -/
theorem get_datasource_cases_witness :
    (∃ (conf : Config) (table1 : SymbolTable) (ds : GoMap String RawMessage),
        Get sampleExternals noOverrideEnv (defaultExchangeSymbolsMap sampleExternals)
          = (.returned (some conf) none, table1)
        ∧ conf.DataSourceConfigMap = some ds ∧ ds.len = 0)
    ∧ (∃ table1 : SymbolTable,
        Get sampleExternals (noOverrideEnv.setenv "DATASOURCE_CONFIG_MAP" "not json")
            (defaultExchangeSymbolsMap sampleExternals)
          = (.returned none (some "failed to parse DATASOURCE_CONFIG_MAP: invalid json"),
              table1)) :=
  ⟨(get_datasource_cases sampleExternals noOverrideEnv
        (defaultExchangeSymbolsMap sampleExternals) GoMap.empty rfl
        (by unfold WellFormed; decide) (by unfold RequiredSet; decide)).1 rfl,
   (get_datasource_cases sampleExternals
        (noOverrideEnv.setenv "DATASOURCE_CONFIG_MAP" "not json")
        (defaultExchangeSymbolsMap sampleExternals) GoMap.empty rfl
        (by unfold WellFormed; decide) (by unfold RequiredSet; decide)).2 (by decide) rfl⟩

/-- C10: in an environment that resolves (both JSON variables decode, pairs
well-formed, required variables set) `Get` returns no error, and `ValidatorAddr`
is nil when `VALIDATOR_ADDRESS` is unset or empty, nil when it is non-empty and
does not decode, and the decoded address when it decodes.  Changing the value
of `VALIDATOR_ADDRESS` never changes the error `Get` returns, nor whether it
panics. -/
theorem get_validator_address (x : Externals) (env : Env) (table : SymbolTable)
    (ov : GoMap String (GoMap String String)) (ds : Option (GoMap String RawMessage))
    (hparse : x.unmarshalSymbols (env "EXCHANGE_SYMBOLS_MAP") = some ov)
    (hwf : WellFormed x ov) (hds : DatasourceParses x env ds) (hreq : RequiredSet env) :
    (∃ (conf : Config) (table1 : SymbolTable),
      Get x env table = (.returned (some conf) none, table1)
      ∧ (env "VALIDATOR_ADDRESS" = "" → conf.ValidatorAddr = none)
      ∧ (env "VALIDATOR_ADDRESS" ≠ "" →
          x.valAddressFromBech32 (env "VALIDATOR_ADDRESS") = none → conf.ValidatorAddr = none)
      ∧ (∀ a : ValAddress, env "VALIDATOR_ADDRESS" ≠ "" →
          x.valAddressFromBech32 (env "VALIDATOR_ADDRESS") = some a →
          conf.ValidatorAddr = some a))
    ∧ (∀ (anyEnv : Env) (anyTable : SymbolTable) (v : String),
        (Get x (anyEnv.setenv "VALIDATOR_ADDRESS" v) anyTable).1.error
          = (Get x anyEnv anyTable).1.error
        ∧ (Get x (anyEnv.setenv "VALIDATOR_ADDRESS" v) anyTable).1.panics
          = (Get x anyEnv anyTable).1.panics) := by
  refine ⟨?_, fun anyEnv anyTable v => ?_⟩
  · obtain ⟨conf, table1, hget, -, -, -, hva, -⟩ :=
      Get_succeeds x env table ov ds hparse hwf hds hreq
    refine ⟨conf, table1, hget, ?_, ?_, ?_⟩
    · intro h
      rw [hva, if_pos h]
    · intro h hnone
      rw [hva, if_neg h, hnone]
    · intro a h hsome
      rw [hva, if_neg h, hsome]
  · exact ⟨(Get_setenv_validator x anyEnv anyTable v).1,
      (Get_setenv_validator x anyEnv anyTable v).2.1⟩

/-- C10, at `VALIDATOR_ADDRESS=not-an-address`, which does not decode. -/
theorem get_validator_address_witness :
    ∃ (conf : Config) (table1 : SymbolTable),
      Get sampleExternals (noOverrideEnv.setenv "VALIDATOR_ADDRESS" "not-an-address")
          (defaultExchangeSymbolsMap sampleExternals)
        = (.returned (some conf) none, table1)
      ∧ conf.ValidatorAddr = none := by
  obtain ⟨⟨conf, table1, hget, -, hbad, -⟩, -⟩ :=
    get_validator_address sampleExternals
      (noOverrideEnv.setenv "VALIDATOR_ADDRESS" "not-an-address")
      (defaultExchangeSymbolsMap sampleExternals) GoMap.empty (some GoMap.empty) rfl
      (by unfold WellFormed; decide) (Or.inl ⟨rfl, rfl⟩) (by unfold RequiredSet; decide)
  exact ⟨conf, table1, hget, hbad (by decide) rfl⟩

/-- C11: when `EXCHANGE_SYMBOLS_MAP` decodes, a malformed pair string in the
override makes `Get` panic, with the error `asset.TryNewPair` reports for a pair
of the override, so that nothing reaches the error result of `Get`; when every
pair string is well-formed the merge loops end normally and `Get` does not
panic. -/
theorem get_malformed_pair_panics (x : Externals) (env : Env) (table : SymbolTable)
    (ov : GoMap String (GoMap String String))
    (hparse : x.unmarshalSymbols (env "EXCHANGE_SYMBOLS_MAP") = some ov) :
    (¬ WellFormed x ov →
      ∃ (msg : String) (table1 : SymbolTable),
        Get x env table = (.panicked msg, table1)
        ∧ (∃ e ∈ ov.entries, ∃ q ∈ e.2.entries, x.pairError q.1 = some msg)
        ∧ (Get x env table).1.error = none)
    ∧ (WellFormed x ov →
        ∃ table1 : SymbolTable,
          mergeOverride x ov.entries table = (.ok (), table1)
          ∧ (Get x env table).1.panics = false) := by
  refine ⟨fun hbad => ?_, fun hwf => ?_⟩
  · obtain ⟨msg, table1, hrun, hmsg⟩ :=
      mergeOverride_panics x ov.entries table (exists_malformed x ov hbad) ov.nodup
    have hget := Get_panics x env table table1 ov msg hparse hrun
    exact ⟨msg, table1, hget, hmsg, by rw [hget]; rfl⟩
  · obtain ⟨table1, hmerge, -, -⟩ := merge_of_wellFormed x table ov hwf
    refine ⟨table1, hmerge, ?_⟩
    rcases Get_cases x env table with ⟨hnone, -⟩ | ⟨ov1, msg, t1, hp, hm, -⟩
      | ⟨ov1, t1, -, -, hget⟩ | ⟨ov1, t1, ds, conf, -, -, -, hget, -⟩
    · rw [hparse] at hnone
      simp at hnone
    · rw [hparse] at hp
      simp only [Option.some.injEq] at hp
      subst hp
      rw [hmerge] at hm
      simp at hm
    · rw [hget]; rfl
    · rw [hget]; rfl

/-- C11, at an override whose pair string `ubtcuusd` has no separator. -/
theorem get_malformed_pair_panics_witness :
    ∃ (msg : String) (table1 : SymbolTable),
      Get badPairExternals badPairEnv (defaultExchangeSymbolsMap badPairExternals)
        = (.panicked msg, table1)
      ∧ (∃ e ∈ badPairOverride.entries, ∃ q ∈ e.2.entries,
          badPairExternals.pairError q.1 = some msg)
      ∧ (Get badPairExternals badPairEnv (defaultExchangeSymbolsMap badPairExternals)).1.error
          = none :=
  (get_malformed_pair_panics badPairExternals badPairEnv
    (defaultExchangeSymbolsMap badPairExternals) badPairOverride rfl).1
    (by unfold WellFormed; decide)

/-- C12: in every `Config` that `Get` returns, `EnableTLS` is true exactly when
the value of `ENABLE_TLS` is the string `true`; the empty string, `TRUE`,
`True`, `1` and ` true` all give false. -/
theorem get_enable_tls (x : Externals) (env : Env) (table table1 : SymbolTable)
    (conf : Config) (err : Option String)
    (h : Get x env table = (.returned (some conf) err, table1)) :
    (conf.EnableTLS = true ↔ env "ENABLE_TLS" = "true")
    ∧ (env "ENABLE_TLS" ∈ ["", "TRUE", "True", "1", " true"] → conf.EnableTLS = false) := by
  have htls : conf.EnableTLS = decide (env "ENABLE_TLS" = "true") := by
    rcases Get_cases x env table with ⟨-, hget⟩ | ⟨ov1, msg, t1, -, -, hget⟩
      | ⟨ov1, t1, -, -, hget⟩ | ⟨ov1, t1, ds, c, -, -, -, hget, -, hc⟩
    · rw [hget] at h
      simp at h
    · rw [hget] at h
      simp at h
    · rw [hget] at h
      simp at h
    · rw [hget] at h
      simp only [Prod.mk.injEq, GetResult.returned.injEq, Option.some.injEq] at h
      obtain ⟨⟨hconf, -⟩, -⟩ := h
      rw [← hconf]
      exact hc
  refine ⟨?_, ?_⟩
  · rw [htls]
    simp
  · intro hmem
    rw [htls]
    simp only [List.mem_cons, List.mem_singleton, List.not_mem_nil, or_false] at hmem
    rcases hmem with h1 | h1 | h1 | h1 | h1 <;> rw [h1] <;> decide

/-- C12, at `ENABLE_TLS=TRUE`, which gives false, and `ENABLE_TLS=true`. -/
theorem get_enable_tls_witness :
    (∃ conf : Config,
      (Get sampleExternals (noOverrideEnv.setenv "ENABLE_TLS" "TRUE")
          (defaultExchangeSymbolsMap sampleExternals)).1.conf = some conf
      ∧ conf.EnableTLS = false)
    ∧ (∃ conf : Config,
      (Get sampleExternals (noOverrideEnv.setenv "ENABLE_TLS" "true")
          (defaultExchangeSymbolsMap sampleExternals)).1.conf = some conf
      ∧ conf.EnableTLS = true) := by
  refine ⟨?_, ?_⟩
  · obtain ⟨conf, table1, hget, -⟩ :=
      Get_succeeds sampleExternals (noOverrideEnv.setenv "ENABLE_TLS" "TRUE")
        (defaultExchangeSymbolsMap sampleExternals) GoMap.empty (some GoMap.empty) rfl
        (by unfold WellFormed; decide) (Or.inl ⟨rfl, rfl⟩) (by unfold RequiredSet; decide)
    exact ⟨conf, by rw [hget]; rfl,
      (get_enable_tls sampleExternals _ _ table1 conf none hget).2 (by decide)⟩
  · obtain ⟨conf, table1, hget, -⟩ :=
      Get_succeeds sampleExternals (noOverrideEnv.setenv "ENABLE_TLS" "true")
        (defaultExchangeSymbolsMap sampleExternals) GoMap.empty (some GoMap.empty) rfl
        (by unfold WellFormed; decide) (Or.inl ⟨rfl, rfl⟩) (by unfold RequiredSet; decide)
    exact ⟨conf, by rw [hget]; rfl,
      (get_enable_tls sampleExternals _ _ table1 conf none hget).1.2 rfl⟩

/-- C13: the merge loops write into the package-level table.  After a call of
`Get` whose override (well-formed pairs) mentions `E`, that table maps `E` to the
override's content for `E`; a later call whose override does not mention `E`
returns a table with this same entry for `E`, which is not the compiled-in entry
whenever the two differ at some pair; and the same later environment, run on
the table as it was before the first call, returns the entry of that table
instead. -/
theorem get_mutates_default_table (x : Externals) (env1 env2 : Env) (table : SymbolTable)
    (ov1 ov2 : GoMap String (GoMap String String))
    (ds2 : Option (GoMap String RawMessage))
    (E : String) (m : GoMap String String)
    (hparse1 : x.unmarshalSymbols (env1 "EXCHANGE_SYMBOLS_MAP") = some ov1)
    (hwf1 : WellFormed x ov1) (hE1 : ov1.get E = some m)
    (hparse2 : x.unmarshalSymbols (env2 "EXCHANGE_SYMBOLS_MAP") = some ov2)
    (hwf2 : WellFormed x ov2) (hds2 : DatasourceParses x env2 ds2)
    (hE2 : ov2.get E = none) :
    ∃ inner : GoMap Pair Symbol,
      (Get x env1 table).2.get E = some inner
      ∧ (∀ p, inner.get p = m.get p)
      ∧ (∃ (conf : Config) (err : Option String) (table2 tbl : SymbolTable),
          Get x env2 (Get x env1 table).2 = (.returned (some conf) err, table2)
          ∧ conf.ExchangesToPairToSymbolMap = some tbl
          ∧ tbl.get E = some inner
          ∧ (∀ (d : GoMap Pair Symbol) (p : Pair),
              (defaultExchangeSymbolsMap x).get E = some d → d.get p ≠ m.get p →
              tbl.get E ≠ (defaultExchangeSymbolsMap x).get E))
      ∧ (∃ (conf : Config) (err : Option String) (table2 tbl : SymbolTable),
          Get x env2 table = (.returned (some conf) err, table2)
          ∧ conf.ExchangesToPairToSymbolMap = some tbl
          ∧ tbl.get E = table.get E) := by
  obtain ⟨inner, hin, hsame⟩ := Get_table_override x env1 table ov1 E m hparse1 hwf1 hE1
  obtain ⟨conf, err, table2, tbl, hget, htbl, hfr⟩ :=
    Get_frame x env2 (Get x env1 table).2 ov2 ds2 E hparse2 hwf2 hds2 hE2
  refine ⟨inner, hin, hsame, ⟨conf, err, table2, tbl, hget, htbl, hfr.trans hin, ?_⟩,
    Get_frame x env2 table ov2 ds2 E hparse2 hwf2 hds2 hE2⟩
  intro d p hd hne heq
  rw [hfr, hin, hd] at heq
  simp only [Option.some.injEq] at heq
  subst heq
  exact hne (hsame p)

/-- C13, at a call overriding `bitfinex` followed by a call with `{}`: the second
call returns for `bitfinex` the one pair of the first call's override, where the
same call on the compiled-in table returns the compiled-in entry. -/
theorem get_mutates_default_table_witness :
    ∃ inner : GoMap Pair Symbol,
      (Get sampleExternals overrideEnv (defaultExchangeSymbolsMap sampleExternals)).2.get
          "bitfinex" = some inner
      ∧ (∃ (conf : Config) (err : Option String) (table2 tbl : SymbolTable),
          Get sampleExternals noOverrideEnv
              (Get sampleExternals overrideEnv (defaultExchangeSymbolsMap sampleExternals)).2
            = (.returned (some conf) err, table2)
          ∧ conf.ExchangesToPairToSymbolMap = some tbl
          ∧ tbl.get "bitfinex" = some inner
          ∧ tbl.get "bitfinex" ≠ (defaultExchangeSymbolsMap sampleExternals).get "bitfinex")
      ∧ (∃ (conf : Config) (err : Option String) (table2 tbl : SymbolTable),
          Get sampleExternals noOverrideEnv (defaultExchangeSymbolsMap sampleExternals)
            = (.returned (some conf) err, table2)
          ∧ conf.ExchangesToPairToSymbolMap = some tbl
          ∧ tbl.get "bitfinex" = (defaultExchangeSymbolsMap sampleExternals).get "bitfinex") := by
  obtain ⟨inner, hin, -, ⟨conf, err, table2, tbl, hget, htbl, hE, hne⟩, hsame⟩ :=
    get_mutates_default_table sampleExternals overrideEnv noOverrideEnv
      (defaultExchangeSymbolsMap sampleExternals) sampleOverride GoMap.empty (some GoMap.empty)
      "bitfinex" (GoMap.empty.set "ubtc:uusd" "tXBTUSD") rfl (by unfold WellFormed; decide) rfl
      rfl (by unfold WellFormed; decide) (Or.inl ⟨rfl, rfl⟩) rfl
  exact ⟨inner, hin, ⟨conf, err, table2, tbl, hget, htbl, hE,
    hne bitfinexSymbols "ueth:uusd" rfl (by decide)⟩, hsame⟩

/-- C14: a call of `Get` whose override (well-formed pairs) mentions `E` and that
then fails, on a non-empty `DATASOURCE_CONFIG_MAP` that does not decode or on an
empty required variable, returns an error and still leaves the package-level
table with the override's content for `E`: the table is not the one the call
found, unless that one already held this content for `E`. -/
theorem get_error_after_mutation (x : Externals) (env : Env) (table : SymbolTable)
    (ov : GoMap String (GoMap String String)) (E : String) (m : GoMap String String)
    (hparse : x.unmarshalSymbols (env "EXCHANGE_SYMBOLS_MAP") = some ov)
    (hwf : WellFormed x ov) (hE : ov.get E = some m)
    (hfail : (env "DATASOURCE_CONFIG_MAP" ≠ ""
                ∧ x.unmarshalRaw (env "DATASOURCE_CONFIG_MAP") = none)
             ∨ ((∃ ds, DatasourceParses x env ds) ∧ ¬ RequiredSet env))
    (hdiff : ∀ d : GoMap Pair Symbol, table.get E = some d → ∃ p, d.get p ≠ m.get p) :
    ∃ (e : String) (inner : GoMap Pair Symbol),
      (Get x env table).1.error = some e
      ∧ (Get x env table).2.get E = some inner
      ∧ (∀ p, inner.get p = m.get p)
      ∧ (Get x env table).2 ≠ table := by
  obtain ⟨inner, hin, hsame⟩ := Get_table_override x env table ov E m hparse hwf hE
  obtain ⟨table1, hmerge, -, -⟩ := merge_of_wellFormed x table ov hwf
  have herr : ∃ e, (Get x env table).1.error = some e := by
    rcases hfail with ⟨hne, hnone⟩ | ⟨⟨ds, hds⟩, hmissing⟩
    · rw [Get_datasource_error x env table table1 ov hparse hmerge hne hnone]
      exact ⟨_, rfl⟩
    · obtain ⟨conf, hget, -, -, hg, hw, hf, hc, -, -⟩ :=
        Get_returns_conf x env table table1 ov ds hparse hmerge hds
      cases hv : conf.Validate with
      | none =>
        obtain ⟨v1, v2, v3, v4⟩ := validate_eq_none conf hv
        exact absurd ⟨hc ▸ v1, hf ▸ v2, hw ▸ v3, hg ▸ v4⟩ hmissing
      | some e =>
        rw [hget, hv]
        exact ⟨e, rfl⟩
  obtain ⟨e, he⟩ := herr
  refine ⟨e, inner, he, hin, hsame, ?_⟩
  intro heq
  rw [heq] at hin
  obtain ⟨p, hp⟩ := hdiff inner hin
  exact hp (hsame p)

/-- C14, at an override of `bitfinex` with `DATASOURCE_CONFIG_MAP=not json`, and
at the same override with `CHAIN_ID` empty; both on the compiled-in table. -/
theorem get_error_after_mutation_witness :
    (∃ (e : String) (inner : GoMap Pair Symbol),
      (Get sampleExternals (overrideEnv.setenv "DATASOURCE_CONFIG_MAP" "not json")
          (defaultExchangeSymbolsMap sampleExternals)).1.error = some e
      ∧ (Get sampleExternals (overrideEnv.setenv "DATASOURCE_CONFIG_MAP" "not json")
          (defaultExchangeSymbolsMap sampleExternals)).2.get "bitfinex" = some inner
      ∧ (∀ p, inner.get p = (GoMap.empty.set "ubtc:uusd" "tXBTUSD" : GoMap String String).get p)
      ∧ (Get sampleExternals (overrideEnv.setenv "DATASOURCE_CONFIG_MAP" "not json")
          (defaultExchangeSymbolsMap sampleExternals)).2
          ≠ defaultExchangeSymbolsMap sampleExternals)
    ∧ (∃ (e : String) (inner : GoMap Pair Symbol),
      (Get sampleExternals (overrideEnv.setenv "CHAIN_ID" "")
          (defaultExchangeSymbolsMap sampleExternals)).1.error = some e
      ∧ (Get sampleExternals (overrideEnv.setenv "CHAIN_ID" "")
          (defaultExchangeSymbolsMap sampleExternals)).2.get "bitfinex" = some inner
      ∧ (∀ p, inner.get p = (GoMap.empty.set "ubtc:uusd" "tXBTUSD" : GoMap String String).get p)
      ∧ (Get sampleExternals (overrideEnv.setenv "CHAIN_ID" "")
          (defaultExchangeSymbolsMap sampleExternals)).2
          ≠ defaultExchangeSymbolsMap sampleExternals) := by
  have hdiff : ∀ d : GoMap Pair Symbol,
      (defaultExchangeSymbolsMap sampleExternals).get "bitfinex" = some d →
      ∃ p, d.get p ≠ (GoMap.empty.set "ubtc:uusd" "tXBTUSD" : GoMap String String).get p := by
    intro d hd
    have hb : (defaultExchangeSymbolsMap sampleExternals).get "bitfinex"
        = some bitfinexSymbols := rfl
    rw [hb] at hd
    simp only [Option.some.injEq] at hd
    subst hd
    exact ⟨"ueth:uusd", by decide⟩
  exact ⟨get_error_after_mutation sampleExternals
      (overrideEnv.setenv "DATASOURCE_CONFIG_MAP" "not json")
      (defaultExchangeSymbolsMap sampleExternals) sampleOverride "bitfinex"
      (GoMap.empty.set "ubtc:uusd" "tXBTUSD") rfl (by unfold WellFormed; decide) rfl
      (Or.inl ⟨by decide, rfl⟩) hdiff,
    get_error_after_mutation sampleExternals (overrideEnv.setenv "CHAIN_ID" "")
      (defaultExchangeSymbolsMap sampleExternals) sampleOverride "bitfinex"
      (GoMap.empty.set "ubtc:uusd" "tXBTUSD") rfl (by unfold WellFormed; decide) rfl
      (Or.inr ⟨⟨some GoMap.empty, Or.inl ⟨rfl, rfl⟩⟩, by unfold RequiredSet; decide⟩) hdiff⟩

/-- C15: a call of `Get` that returns the error
"failed to parse EXCHANGE_SYMBOLS_MAP: invalid json" returns a nil `Config` and
leaves the package-level table exactly as it found it; this is the call on
which `json.Unmarshal` rejects the value of `EXCHANGE_SYMBOLS_MAP`. -/
theorem get_symbols_error_keeps_table (x : Externals) (env : Env) (table table1 : SymbolTable)
    (c : Option Config)
    (h : Get x env table
          = (.returned c (some "failed to parse EXCHANGE_SYMBOLS_MAP: invalid json"), table1)) :
    c = none ∧ table1 = table ∧ x.unmarshalSymbols (env "EXCHANGE_SYMBOLS_MAP") = none := by
  rcases Get_cases x env table with ⟨hnone, hget⟩ | ⟨ov1, msg, t1, -, -, hget⟩
    | ⟨ov1, t1, -, -, hget⟩ | ⟨ov1, t1, ds, conf, -, -, -, hget, -⟩
  · rw [hget] at h
    simp only [Prod.mk.injEq, GetResult.returned.injEq] at h
    exact ⟨h.1.1.symm, h.2.symm, hnone⟩
  · rw [hget] at h
    simp at h
  · rw [hget] at h
    simp only [Prod.mk.injEq, GetResult.returned.injEq, Option.some.injEq] at h
    exact absurd h.1.2 (by decide)
  · rw [hget] at h
    simp only [Prod.mk.injEq, GetResult.returned.injEq] at h
    obtain ⟨⟨-, hv⟩, -⟩ := h
    rcases validate_messages conf with hm | hm | hm | hm | hm <;> rw [hm] at hv
    · simp at hv
    all_goals
      simp only [Option.some.injEq] at hv
      exact absurd hv (by decide)

/-- C15, at an environment that leaves `EXCHANGE_SYMBOLS_MAP` unset, read as the
empty string. -/
theorem get_symbols_error_keeps_table_witness :
    (Get sampleExternals requiredOnlyEnv (defaultExchangeSymbolsMap sampleExternals)).1.conf
      = none
    ∧ (Get sampleExternals requiredOnlyEnv (defaultExchangeSymbolsMap sampleExternals)).2
      = defaultExchangeSymbolsMap sampleExternals
    ∧ sampleExternals.unmarshalSymbols (requiredOnlyEnv "EXCHANGE_SYMBOLS_MAP") = none :=
  get_symbols_error_keeps_table sampleExternals requiredOnlyEnv
    (defaultExchangeSymbolsMap sampleExternals)
    (Get sampleExternals requiredOnlyEnv (defaultExchangeSymbolsMap sampleExternals)).2
    (Get sampleExternals requiredOnlyEnv (defaultExchangeSymbolsMap sampleExternals)).1.conf
    (by rfl)

/-- C16, as stated, fails: on an override with a malformed pair string `Get`
panics, so the call of `MustGet` ends in a panic although `Get` has returned no
error, and `MustGet` does not return a `Config` although `Get` has returned no
error. -/
theorem mustGet_panics_without_error :
    ¬ ((MustGet badPairExternals badPairEnv (defaultExchangeSymbolsMap badPairExternals)).1.panics
          = true
        ↔ ∃ (c : Option Config) (e : String),
            (Get badPairExternals badPairEnv (defaultExchangeSymbolsMap badPairExternals)).1
              = .returned c (some e))
    ∧ ¬ ((¬ ∃ (c : Option Config) (e : String),
            (Get badPairExternals badPairEnv (defaultExchangeSymbolsMap badPairExternals)).1
              = .returned c (some e))
        → ∃ conf : Config,
            (MustGet badPairExternals badPairEnv (defaultExchangeSymbolsMap badPairExternals)).1
              = .returned conf) := by
  have hp : (Get badPairExternals badPairEnv
      (defaultExchangeSymbolsMap badPairExternals)).1.panics = true := rfl
  have hno : ¬ ∃ (c : Option Config) (e : String),
      (Get badPairExternals badPairEnv (defaultExchangeSymbolsMap badPairExternals)).1
        = .returned c (some e) := by
    rintro ⟨c, e, he⟩
    rw [he] at hp
    simp [GetResult.panics] at hp
  refine ⟨fun hiff => hno (hiff.1 rfl), fun himp => ?_⟩
  obtain ⟨conf, hconf⟩ := himp hno
  have hm : (MustGet badPairExternals badPairEnv
      (defaultExchangeSymbolsMap badPairExternals)).1.panics = true := rfl
  rw [hconf] at hm
  simp [MustGetResult.panics] at hm

/-- C16, amended: a call of `MustGet` ends in a panic exactly when `Get` returns
an error or `Get` itself panics.  When `Get` returns the error `e`, `MustGet`
panics with "config error! check the environment: " followed by `e`; when `Get`
returns no error, its `Config` is non-nil and `MustGet` returns that `Config`.
`Get` never returns a nil `Config` with a nil error, so the "invalid config"
branch of `MustGet` is never taken.  The table is left as `Get` leaves it. -/
theorem mustGet_spec (x : Externals) (env : Env) (table : SymbolTable) :
    ((MustGet x env table).1.panics = true
      ↔ ((∃ (c : Option Config) (e : String), (Get x env table).1 = .returned c (some e))
          ∨ (Get x env table).1.panics = true))
    ∧ (∀ (c : Option Config) (e : String), (Get x env table).1 = .returned c (some e) →
        (MustGet x env table).1
          = .panicked ("config error! check the environment: " ++ e))
    ∧ (∀ c : Option Config, (Get x env table).1 = .returned c none →
        ∃ conf : Config, c = some conf ∧ (MustGet x env table).1 = .returned conf)
    ∧ (Get x env table).1 ≠ .returned none none
    ∧ (MustGet x env table).2 = (Get x env table).2 := by
  rcases Get_cases x env table with ⟨-, hget⟩ | ⟨ov1, msg, t1, -, -, hget⟩
    | ⟨ov1, t1, -, -, hget⟩ | ⟨ov1, t1, ds, conf, -, -, -, hget, -⟩
  · simp [MustGet, hget, MustGetResult.panics, GetResult.panics]
  · simp [MustGet, hget, MustGetResult.panics, GetResult.panics]
  · simp [MustGet, hget, MustGetResult.panics, GetResult.panics]
  · cases hv : conf.Validate with
    | none => simp [MustGet, hget, hv, MustGetResult.panics, GetResult.panics]
    | some e => simp [MustGet, hget, hv, MustGetResult.panics, GetResult.panics]

/-- C16, amended, at an environment that resolves: `MustGet` returns the `Config`
that `Get` returns. -/
theorem mustGet_spec_witness :
    ∃ conf : Config,
      (Get sampleExternals noOverrideEnv (defaultExchangeSymbolsMap sampleExternals)).1.conf
        = some conf
      ∧ (MustGet sampleExternals noOverrideEnv (defaultExchangeSymbolsMap sampleExternals)).1
        = .returned conf :=
  (mustGet_spec sampleExternals noOverrideEnv
    (defaultExchangeSymbolsMap sampleExternals)).2.2.1
    (Get sampleExternals noOverrideEnv (defaultExchangeSymbolsMap sampleExternals)).1.conf
    (by rfl)

end Pricefeeder
